import Mathlib

/-!
Verification development for the Passos Mágicos medallion ETL pipeline
(`make_bronze.py` → `make_silver.py` → `make_gold.py`).

The Python code is shallowly embedded:
* pandas `DataFrame`s appearing in the Silver stage are column-major
  association lists `Frame := List (String × List Val)`;
* the typed frames of the Gold stage are lists of records;
* Python scalar values are the inductive `Val` (null / string / int / float),
  where floats are modelled as exact rationals `Q` (the pipeline's numeric
  values are decimal literals, for which binary-float and exact arithmetic
  agree at the precision the code observes after 3-decimal rounding);
* fallible operations (`astype`, schema validation) return `Except`.

All definitions are executable and kernel-reducible so concrete runs of the
embedded pipeline can be discharged with `decide` / `rfl`.
-/

namespace Datathon

/-! ## Character-list string utilities (Python `str` operations) -/

/-- Digit test for a character. -/
def isDigitCh (c : Char) : Bool := c.isDigit

/-- Numeric value of a decimal digit character. -/
def digitVal (c : Char) : Nat := c.toNat - '0'.toNat

/-- Value of a string of decimal digits. -/
def digitsToNat (ds : List Char) : Nat := ds.foldl (fun a c => a * 10 + digitVal c) 0

/-- Longest leading run of digits. -/
def takeDigits (cs : List Char) : List Char := cs.takeWhile isDigitCh

/-- Drop characters up to (but not including) the first digit. -/
def dropToDigit : List Char → List Char
  | [] => []
  | c :: cs => if isDigitCh c then c :: cs else dropToDigit cs

/-- First maximal digit run in a string, as a number (Python `re.search(r"(\d+)", s)`). -/
def firstNatRun? (cs : List Char) : Option Nat :=
  match dropToDigit cs with
  | [] => none
  | c :: cs' => some (digitsToNat (takeDigits (c :: cs')))

/-- First window of four consecutive digits (Python `re.search(r"\d{4}", s)`, and the
equivalent `(\d{2})(\d{2})` grouping used for sheet years). -/
def findYear4 : List Char → Option (List Char)
  | a :: b :: c :: d :: rest =>
    if isDigitCh a && isDigitCh b && isDigitCh c && isDigitCh d then some [a, b, c, d]
    else findYear4 (b :: c :: d :: rest)
  | _ => none

/-- `List.isPrefixOf`-style Boolean test, written out structurally. -/
def startsWithL : List Char → List Char → Bool
  | _, [] => true
  | [], _ :: _ => false
  | c :: cs, p :: ps => c == p && startsWithL cs ps

/-- Python `pat in s` substring test. -/
def hasSubstrL : List Char → List Char → Bool
  | [], pat => pat.isEmpty
  | c :: cs, pat => startsWithL (c :: cs) pat || hasSubstrL cs pat

/-- Python `str.strip()`. -/
def trimL (cs : List Char) : List Char :=
  (((cs.dropWhile Char.isWhitespace).reverse).dropWhile Char.isWhitespace).reverse

/-- ASCII transliteration of the accented characters occurring in this data set
(embedding of `unidecode.unidecode` restricted to the repository's alphabet). -/
def foldChar (c : Char) : Char :=
  if c = 'á' ∨ c = 'ã' ∨ c = 'â' ∨ c = 'à' then 'a'
  else if c = 'Á' ∨ c = 'Ã' ∨ c = 'Â' ∨ c = 'À' then 'A'
  else if c = 'é' ∨ c = 'ê' then 'e'
  else if c = 'É' ∨ c = 'Ê' then 'E'
  else if c = 'í' then 'i'
  else if c = 'Í' then 'I'
  else if c = 'ó' ∨ c = 'õ' ∨ c = 'ô' then 'o'
  else if c = 'Ó' ∨ c = 'Õ' ∨ c = 'Ô' then 'O'
  else if c = 'ú' then 'u'
  else if c = 'Ú' then 'U'
  else if c = 'ç' then 'c'
  else if c = 'Ç' then 'C'
  else c

/-- ASCII lower-casing (Python `str.lower()` on the transliterated alphabet). -/
def lowerCh (c : Char) : Char := c.toLower

/-- ASCII upper-casing (Python `str.upper()` on the transliterated alphabet). -/
def upperCh (c : Char) : Char := c.toUpper

/-! ## Exact rational numbers standing in for Python floats -/

/-- Normalised fraction `num / den`; built only through `mkQ`, so structural
equality coincides with numeric equality. -/
structure Q where
  num : Int
  den : Nat
deriving DecidableEq, Repr

/-- Smart constructor: reduce `n / d` to lowest terms (`d = 0` never arises on
pipeline paths and is mapped to `0`). -/
def mkQ (n : Int) (d : Nat) : Q :=
  if d = 0 then ⟨0, 1⟩
  else
    let g := Nat.gcd n.natAbs d
    ⟨n / (g : Int), d / g⟩

/-- Embed an integer. -/
def Q.ofInt (n : Int) : Q := ⟨n, 1⟩

/-- Fraction with an integer denominator (sign moved to the numerator). -/
def mkQi (n d : Int) : Q :=
  if d < 0 then mkQ (-n) (-d).toNat else mkQ n d.toNat

/-- Addition. -/
def Q.add (a b : Q) : Q := mkQ (a.num * b.den + b.num * a.den) (a.den * b.den)

/-- Subtraction. -/
def Q.sub (a b : Q) : Q := mkQ (a.num * b.den - b.num * a.den) (a.den * b.den)

/-- Multiplication. -/
def Q.mul (a b : Q) : Q := mkQ (a.num * b.num) (a.den * b.den)

/-- Division. -/
def Q.divQ (a b : Q) : Q := mkQi (a.num * b.den) ((a.den : Int) * b.num)

/-- Truncation toward zero (Python `int(float)`). -/
def Q.trunc (a : Q) : Int := a.num / (a.den : Int)

/-- Round half to even to the nearest integer (NumPy/pandas rounding). -/
def Q.roundHE (a : Q) : Int :=
  let fl := Int.fdiv a.num (a.den : Int)
  let rem := a.num - fl * (a.den : Int)
  if 2 * rem < (a.den : Int) then fl
  else if 2 * rem > (a.den : Int) then fl + 1
  else if fl % 2 = 0 then fl else fl + 1

/-- pandas `Series.round(3)`. -/
def Q.round3 (a : Q) : Q := mkQ ((a.mul (Q.ofInt 1000)).roundHE) 1000

/-- Parse an unsigned decimal literal (`"18"`, `"18.0"`, `".5"`, `"18."`). -/
def parseUnsignedDec (cs : List Char) : Option Q :=
  let ip := takeDigits cs
  match cs.drop ip.length with
  | [] => if ip.isEmpty then none else some (Q.ofInt (digitsToNat ip))
  | '.' :: fs =>
    let fp := takeDigits fs
    if ¬ (fs.drop fp.length).isEmpty then none
    else if ip.isEmpty && fp.isEmpty then none
    else some (mkQ ((digitsToNat ip : Int) * (10 : Int) ^ fp.length + (digitsToNat fp : Int))
      ((10 : Nat) ^ fp.length))
  | _ => none

/-- Python `float(s)` on the decimal forms the pipeline feeds it (scientific
notation and `inf`/`nan` literals never occur in the data and are not modelled). -/
def parseFloatL (cs : List Char) : Option Q :=
  match cs with
  | '-' :: rest => (parseUnsignedDec rest).map (fun q => ⟨-q.num, q.den⟩)
  | '+' :: rest => parseUnsignedDec rest
  | _ => parseUnsignedDec cs

/-- Python `int(s)`: optional sign followed by digits only. -/
def parseIntL (cs : List Char) : Option Int :=
  match cs with
  | '-' :: ds => if ¬ ds.isEmpty && ds.all isDigitCh then some (-(digitsToNat ds : Int)) else none
  | '+' :: ds => if ¬ ds.isEmpty && ds.all isDigitCh then some (digitsToNat ds) else none
  | ds => if ¬ ds.isEmpty && ds.all isDigitCh then some (digitsToNat ds) else none

/-! ## The scalar value domain -/

/-- A pandas cell: null (`NaN`/`None`/`pd.NA` conflated), string, integer or float. -/
inductive Val where
  | na : Val
  | str (s : String) : Val
  | intv (n : Int) : Val
  | numv (q : Q) : Val
deriving DecidableEq, Repr

/-- Python `str(v)` (bronze data reaching the cleaners is already stringified,
so only the `str` branch is exercised on pipeline paths). -/
def pyStr : Val → String
  | .na => "nan"
  | .str s => s
  | .intv n => toString n
  | .numv q => toString q.num ++ "/" ++ toString q.den

/-- `pd.isna`. -/
def isNaB : Val → Bool
  | .na => true
  | _ => false

/-! ## `preprocessing.py`: the business-rule cleaning functions -/

/-- `clean_fase`: `"ALFA"` (as substring, after upper/strip) → 0, else first
embedded integer, else null. -/
def clean_fase (valor : Val) : Val :=
  match valor with
  | .na => .na
  | v =>
    let sv := trimL (((pyStr v).data).map upperCh)
    if hasSubstrL sv "ALFA".data then .intv 0
    else
      match firstNatRun? sv with
      | some n => .intv (n : Int)
      | none => .na

/-- Day parsed out of a `"1900-01-DD..."` spreadsheet-epoch timestamp
(embedding of `pd.to_datetime(s).day` on that fixed layout; an invalid day
makes the parse fail, matching the `except` branch). -/
def parseDay1900 (cs : List Char) : Option Int :=
  let ds := takeDigits (cs.drop 8)
  if ds.isEmpty then none
  else
    let d := digitsToNat ds
    if 1 ≤ d ∧ d ≤ 31 then some (d : Int) else none

/-- `clean_idade`: spreadsheet-epoch dates give their day-of-month, otherwise
`int(float(s))`, and an unparseable value is returned unchanged. -/
def clean_idade (valor : Val) : Val :=
  match valor with
  | .na => .na
  | v =>
    let sv := (pyStr v).data
    if startsWithL sv "1900-01-".data then
      match parseDay1900 sv with
      | some d => .intv d
      | none => .na
    else
      match parseFloatL sv with
      | some q => .intv q.trunc
      | none => v

/-- `clean_genero`: exact-string map with `dict.get` (no default) semantics. -/
def clean_genero (valor : Val) : Val :=
  match valor with
  | .na => .na
  | .str s =>
    if s = "Menina" then .str "F"
    else if s = "Menino" then .str "M"
    else if s = "Feminino" then .str "F"
    else if s = "Masculino" then .str "M"
    else .na
  | _ => .na

/-- `clean_ra`: first embedded integer after upper/strip, else null. -/
def clean_ra (valor : Val) : Val :=
  match valor with
  | .na => .na
  | v =>
    let sv := trimL (((pyStr v).data).map upperCh)
    match firstNatRun? sv with
    | some n => .intv (n : Int)
    | none => .na

/-- `clean_pedra`: null / `"INCLUIR"` → null, misspelt `"Agata"` corrected,
anything else passed through. -/
def clean_pedra (valor : Val) : Val :=
  match valor with
  | .na => .na
  | .str "INCLUIR" => .na
  | .str "Agata" => .str "Ágata"
  | v => v

/-- `clean_inde`: null / `"INCLUIR"` → null, else `float(v)`, unparseable → null. -/
def clean_inde (valor : Val) : Val :=
  match valor with
  | .na => .na
  | .str "INCLUIR" => .na
  | .str s =>
    match parseFloatL s.data with
    | some q => .numv q
    | none => .na
  | .intv n => .numv (Q.ofInt n)
  | .numv q => .numv q

/-- The `map_instituicao` dictionary of `clean_instituicao`. -/
def instMap (s : String) : String :=
  if s = "Escola Pública" then "Pública"
  else if s = "Pública" then "Pública"
  else if s = "Rede Decisão" then "Privada"
  else if s = "Escola JP II" then "Privada"
  else if s = "Privada" then "Privada"
  else if s = "Privada - Programa de Apadrinhamento" then "Bolsista"
  else if s = "Privada - Programa de apadrinhamento" then "Bolsista"
  else if s = "Privada *Parcerias com Bolsa 100%" then "Bolsista"
  else if s = "Privada - Pagamento por *Empresa Parceira" then "Bolsista"
  else if s = "Bolsista Universitário *Formado (a)" then "Bolsista"
  else if s = "Concluiu o 3º EM" then "Outros"
  else if s = "Nenhuma das opções acima" then "Outros"
  else "Outros"

/-- `clean_instituicao`: many-to-one map with default `"Outros"` (also for null). -/
def clean_instituicao (valor : Val) : Val :=
  match valor with
  | .na => .str "Outros"
  | .str s => .str (instMap s)
  | _ => .str "Outros"

/-! ## Column-major DataFrames -/

/-- A pandas DataFrame: ordered association list of named columns. -/
abbrev Frame := List (String × List Val)

/-- Column lookup (`c in df.columns` / `df[c]`). -/
def findCol (f : Frame) (c : String) : Option (List Val) :=
  match f with
  | [] => none
  | (n, col) :: rest => if n = c then some col else findCol rest c

/-- Column values with `[]` as the (never exercised) default. -/
def colOf (f : Frame) (c : String) : List Val := (findCol f c).getD []

/-- Row count: length of the leading column (frames are well-formed on all
pipeline paths, every column sharing this length). -/
def nRows : Frame → Nat
  | [] => 0
  | (_, col) :: _ => col.length

/-- `df[c] = col`: replace the column in place, or append it as the last
column when absent — pandas assignment semantics. -/
def setCol (f : Frame) (c : String) (col : List Val) : Frame :=
  match f with
  | [] => [(c, col)]
  | (n, old) :: rest => if n = c then (c, col) :: rest else (n, old) :: setCol rest c col

-- `constants.FeatureNames`: the canonical Silver/Gold column names.
namespace FN

abbrev RA : String := "RA"
abbrev ANO_DADOS : String := "ano_dados"
abbrev FASE : String := "fase"
abbrev IDADE : String := "idade"
abbrev GENERO : String := "genero"
abbrev ANO_INGRESSO : String := "ano_ingresso"
abbrev ANOS_NA_INSTITUICAO : String := "anos_na_instituicao"
abbrev INSTITUICAO : String := "instituicao"
abbrev PEDRA_ATUAL : String := "pedra_atual"
abbrev INDE : String := "inde_atual"
abbrev IAA : String := "indicador_auto_avaliacao"
abbrev IEG : String := "indicador_engajamento"
abbrev IPS : String := "indicador_psicossocial"
abbrev IDA : String := "indicador_aprendizagem"
abbrev IPV : String := "indicador_ponto_virada"
abbrev IAN : String := "indicador_adequacao_nivel"
abbrev IPP : String := "indicador_psico_pedagogico"
abbrev DEFASAGEM : String := "defasagem"
abbrev TARGET_DEFASAGEM : String := "target_defasagem"
abbrev METADATA_SOURCE : String := "metadata_source"
abbrev METADATA_SHEET : String := "metadata_sheet"

end FN

/-- `make_silver.COLUMNS_TO_KEEP`, in source order. -/
def COLUMNS_TO_KEEP : List String :=
  [FN.RA, FN.FASE, FN.IDADE, FN.GENERO, FN.ANOS_NA_INSTITUICAO, FN.INSTITUICAO,
   FN.PEDRA_ATUAL, FN.INDE, FN.IAA, FN.IEG, FN.IPS, FN.IDA, FN.IPV, FN.IAN,
   FN.IPP, FN.DEFASAGEM, FN.ANO_DADOS, FN.METADATA_SOURCE, FN.METADATA_SHEET]

/-! ## `make_silver.py`: core transformations -/

/-- Header normalisation applied to each incoming column name:
`unidecode(str(c).strip().lower()).replace(" ", "_")`. -/
def normalizeName (c : String) : String :=
  ⟨(trimL c.data).map (fun ch =>
    let l := lowerCh (foldChar ch)
    if l = ' ' then '_' else l)⟩

/-- Step 1 of `_extract_target_columns`: normalise every column name. -/
def normalizeHeader (f : Frame) : Frame := f.map (fun p => (normalizeName p.1, p.2))

/-- `_find_and_assign`: first matching column in the priority list, else a
null column bound to the frame's row count (the index-bound `pd.NA` series). -/
def find_and_assign (f : Frame) (possible_names : List String) (n : Nat) : List Val :=
  match possible_names with
  | [] => List.replicate n .na
  | c :: rest =>
    match findCol f c with
    | some col => col
    | none => find_and_assign f rest n

/-- `df.get(c, pd.NA)` followed by column assignment: the column when present,
else a broadcast null column. -/
def getColOrNA (f : Frame) (c : String) (n : Nat) : List Val :=
  (findCol f c).getD (List.replicate n .na)

/-- Year tokens parsed from the first row of the sheet metadata
(`re.search(r"(\d{2})(\d{2})", sheet)` → full four-digit year and short suffix). -/
def sheetYearOf (f : Frame) : String × String :=
  let ms :=
    match findCol f FN.METADATA_SHEET with
    | some (v :: _) => pyStr v
    | _ => ""
  match findYear4 ms.data with
  | some [a, b, c, d] => (⟨[a, b, c, d]⟩, ⟨[c, d]⟩)
  | _ => ("", "")

/-- `_extract_target_columns`: canonical-field extraction by priority lists,
in the source's column-assignment order. -/
def extract_target_columns (f0 : Frame) : Frame :=
  let f := normalizeHeader f0
  let n := nRows f
  let ys := sheetYearOf f
  [(FN.RA, find_and_assign f ["ra"] n),
   (FN.FASE, find_and_assign f ["fase"] n),
   (FN.GENERO, find_and_assign f ["genero"] n),
   (FN.ANO_INGRESSO, find_and_assign f ["ano_ingresso"] n),
   (FN.INSTITUICAO, find_and_assign f ["instituicao_de_ensino", "instituicao"] n),
   (FN.DEFASAGEM, find_and_assign f ["defasagem", "defas"] n),
   (FN.IDADE, find_and_assign f ["idade_" ++ ys.1, "idade_" ++ ys.2, "idade"] n),
   (FN.PEDRA_ATUAL, find_and_assign f ["pedra_" ++ ys.1, "pedra_" ++ ys.2, "pedra"] n),
   (FN.INDE, find_and_assign f ["inde_" ++ ys.1, "inde_" ++ ys.2, "inde"] n),
   (FN.IAA, find_and_assign f ["iaa"] n),
   (FN.IEG, find_and_assign f ["ieg"] n),
   (FN.IPS, find_and_assign f ["ips"] n),
   (FN.IDA, find_and_assign f ["ida"] n),
   (FN.IPV, find_and_assign f ["ipv"] n),
   (FN.IAN, find_and_assign f ["ian"] n),
   (FN.IPP, find_and_assign f ["ipp"] n),
   (FN.METADATA_SHEET, getColOrNA f FN.METADATA_SHEET n),
   (FN.METADATA_SOURCE, getColOrNA f FN.METADATA_SOURCE n)]

/-- `pd.to_numeric(v, errors="coerce")`, elementwise (the int64/float64 dtype
distinction is not tracked; every numeric becomes a `numv`). -/
def toNumericVal : Val → Val
  | .na => .na
  | .intv n => .numv (Q.ofInt n)
  | .numv q => .numv q
  | .str s =>
    match parseFloatL s.data with
    | some q => .numv q
    | none => .na

/-- Numeric reading of a cell. -/
def asNum? : Val → Option Q
  | .numv q => some q
  | .intv n => some (Q.ofInt n)
  | _ => none

/-- The IPP reconstruction formula of `_calculate_missing_ipp`, per row:
`(INDE − (IAN·0.1 + IDA·0.2 + IEG·0.2 + IAA·0.1 + IPS·0.1 + IPV·0.2)) / 0.1`,
rounded to 3 decimals; a null operand propagates to a null result. -/
def ippFormula (inde ian ida ieg iaa ips ipv : Option Q) : Option Q :=
  match inde, ian, ida, ieg, iaa, ips, ipv with
  | some qinde, some qian, some qida, some qieg, some qiaa, some qips, some qipv =>
    some ((((qinde.sub
      ((((((qian.mul (mkQ 1 10)).add
           (qida.mul (mkQ 2 10))).add
           (qieg.mul (mkQ 2 10))).add
           (qiaa.mul (mkQ 1 10))).add
           (qips.mul (mkQ 1 10))).add
           (qipv.mul (mkQ 2 10))))).divQ (mkQ 1 10)).round3)
  | _, _, _, _, _, _, _ => none

/-- The vectorised IPP computation over the seven coerced columns. -/
def ippColumn : List Val → List Val → List Val → List Val → List Val →
    List Val → List Val → List Val
  | i :: is, x1 :: xs1, x2 :: xs2, x3 :: xs3, x4 :: xs4, x5 :: xs5, x6 :: xs6 =>
    (match ippFormula (asNum? i) (asNum? x1) (asNum? x2) (asNum? x3) (asNum? x4)
        (asNum? x5) (asNum? x6) with
     | some q => Val.numv q
     | none => Val.na) ::
      ippColumn is xs1 xs2 xs3 xs4 xs5 xs6
  | _, _, _, _, _, _, _ => []

/-- `pd.to_numeric(df[c], errors="coerce")` written back into the frame, for
each listed column in order. -/
def coerceCols (f : Frame) (cs : List String) : Frame :=
  cs.foldl (fun acc c => setCol acc c ((colOf acc c).map toNumericVal)) f

/-- `_calculate_missing_ipp`: reconstruct IPP via the base formula when the
column is entirely null, otherwise return the frame unchanged. -/
def calculate_missing_ipp (f : Frame) : Frame :=
  if (colOf f FN.IPP).all isNaB then
    let f' := coerceCols f [FN.INDE, FN.IAN, FN.IDA, FN.IEG, FN.IAA, FN.IPS, FN.IPV]
    setCol f' FN.IPP
      (ippColumn (colOf f' FN.INDE) (colOf f' FN.IAN) (colOf f' FN.IDA)
        (colOf f' FN.IEG) (colOf f' FN.IAA) (colOf f' FN.IPS) (colOf f' FN.IPV))
  else f

/-! ## `make_silver.py`: global cleaning with hard casts -/

/-- `.astype(int)` on one cell: nulls and non-integer strings raise. -/
def astypeIntOne : Val → Except String Int
  | .na => .error "int cast of null"
  | .intv n => .ok n
  | .numv q => .ok q.trunc
  | .str s =>
    match parseIntL s.data with
    | some n => .ok n
    | none => .error ("int cast of " ++ s)

/-- `.astype(int)` on a column: first offending cell raises. -/
def astypeInt : List Val → Except String (List Int)
  | [] => .ok []
  | v :: vs =>
    match astypeIntOne v with
    | .error e => .error e
    | .ok n =>
      match astypeInt vs with
      | .error e => .error e
      | .ok ns => .ok (n :: ns)

/-- `.astype(float)` on one cell: nulls stay `NaN`, non-numeric strings raise. -/
def astypeFloatOne : Val → Except String Val
  | .na => .ok .na
  | .intv n => .ok (.numv (Q.ofInt n))
  | .numv q => .ok (.numv q)
  | .str s =>
    match parseFloatL s.data with
    | some q => .ok (.numv q)
    | none => .error ("float cast of " ++ s)

/-- `.astype(float)` on a column. -/
def astypeFloat : List Val → Except String (List Val)
  | [] => .ok []
  | v :: vs =>
    match astypeFloatOne v with
    | .error e => .error e
    | .ok w =>
      match astypeFloat vs with
      | .error e => .error e
      | .ok ws => .ok (w :: ws)

/-- `.astype(str)` on one cell (total). -/
def astypeStrOne (v : Val) : Val := .str (pyStr v)

/-- `df[c] = df[c].apply(clean).astype(int)` guarded by `if c in df.columns`. -/
def applyCleanInt (f : Frame) (c : String) (clean : Val → Val) : Except String Frame :=
  match findCol f c with
  | none => .ok f
  | some col =>
    match astypeInt (col.map clean) with
    | .error e => .error e
    | .ok ns => .ok (setCol f c (ns.map Val.intv))

/-- `df[c] = df[c].apply(clean).astype(str)` guarded by column presence. -/
def applyCleanStr (f : Frame) (c : String) (clean : Val → Val) : Frame :=
  match findCol f c with
  | none => f
  | some col => setCol f c ((col.map clean).map astypeStrOne)

/-- `df[c] = df[c].apply(clean).astype(float)` guarded by column presence. -/
def applyCleanFloat (f : Frame) (c : String) (clean : Val → Val) : Except String Frame :=
  match findCol f c with
  | none => .ok f
  | some col =>
    match astypeFloat (col.map clean) with
    | .error e => .error e
    | .ok ws => .ok (setCol f c ws)

/-- `df[c] = df[c].apply(clean)` (no cast) guarded by column presence. -/
def applyMapCol (f : Frame) (c : String) (clean : Val → Val) : Frame :=
  match findCol f c with
  | none => f
  | some col => setCol f c (col.map clean)

/-- One row of `df[metadata_sheet].str.extract(r"(\d{4})")[0].astype(int)`:
the first four-digit run of the sheet name, int-cast (no match raises). -/
def anoRow : Val → Except String Int
  | .str s =>
    match findYear4 s.data with
    | some ds => .ok (digitsToNat ds : Int)
    | none => .error "int cast of null year"
  | _ => .error "int cast of null year"

/-- The `ano_dados` column. -/
def anoColumn : List Val → Except String (List Int)
  | [] => .ok []
  | v :: vs =>
    match anoRow v with
    | .error e => .error e
    | .ok y =>
      match anoColumn vs with
      | .error e => .error e
      | .ok ys => .ok (y :: ys)

/-- One row of `(ano_dados − to_numeric(ano_ingresso)).astype(int)`. -/
def anosRow (year : Int) (vi : Val) : Except String Int :=
  match asNum? (toNumericVal vi) with
  | some q => .ok ((Q.ofInt year).sub q |>.trunc)
  | none => .error "int cast of null tenure"

/-- The `anos_na_instituicao` column. -/
def anosColumn : List Int → List Val → Except String (List Int)
  | y :: ys, v :: vs =>
    match anosRow y v with
    | .error e => .error e
    | .ok a =>
      match anosColumn ys vs with
      | .error e => .error e
      | .ok rest => .ok (a :: rest)
  | _, _ => .ok []

/-- The years-in-institution feature-engineering block of
`_apply_global_cleaning`, guarded by `if ano_ingresso in df.columns`. -/
def anoBlock (f : Frame) : Except String Frame :=
  match findCol f FN.ANO_INGRESSO with
  | none => .ok f
  | some ingCol =>
    match anoColumn (colOf f FN.METADATA_SHEET) with
    | .error e => .error e
    | .ok years =>
      match anosColumn years ingCol with
      | .error e => .error e
      | .ok anos =>
        .ok (setCol (setCol f FN.ANO_DADOS (years.map Val.intv))
          FN.ANOS_NA_INSTITUICAO (anos.map Val.intv))

/-- `_apply_global_cleaning`: the fixed sequence of per-column cleaning rules
and dtype casts, in source order; the first failing cast aborts. -/
def apply_global_cleaning (f : Frame) : Except String Frame := do
  let f ← applyCleanInt f FN.IDADE clean_idade
  let f := applyCleanStr f FN.GENERO clean_genero
  let f ← applyCleanInt f FN.FASE clean_fase
  let f ← applyCleanInt f FN.RA clean_ra
  let f := applyMapCol f FN.PEDRA_ATUAL clean_pedra
  let f ← applyCleanFloat f FN.INDE clean_inde
  let f := applyCleanStr f FN.INSTITUICAO clean_instituicao
  let f ← applyCleanFloat f FN.IAA id
  let f ← applyCleanFloat f FN.IEG id
  let f ← applyCleanFloat f FN.IPS id
  let f ← applyCleanFloat f FN.IDA id
  let f ← applyCleanFloat f FN.IPV id
  let f ← applyCleanFloat f FN.IAN id
  let f ← applyCleanFloat f FN.IPP id
  let f ← applyCleanInt f FN.DEFASAGEM id
  anoBlock f

/-! ## `make_silver.py`: schema enforcement -/

/-- The column-injection loop of `_validate_schema_pandera`: any canonical
column absent is added as an all-null column. -/
def addMissing (f : Frame) (n : Nat) : Frame :=
  COLUMNS_TO_KEEP.foldl
    (fun acc c => if (findCol acc c).isSome then acc else acc ++ [(c, List.replicate n .na)])
    f

/-- `df[COLUMNS_TO_KEEP]`: restriction to the canonical columns in canonical
order. -/
def restrictCols (f : Frame) : Frame :=
  COLUMNS_TO_KEEP.filterMap (fun c => (findCol f c).map (fun col => (c, col)))

/-- The Pandera schema: the two metadata columns are string-typed with
`coerce=True`, the student-id column is nullable and otherwise unconstrained;
a missing schema column is a fatal schema error. -/
def paValidate (f : Frame) : Except String Frame :=
  match findCol f FN.METADATA_SHEET, findCol f FN.METADATA_SOURCE, findCol f FN.RA with
  | some msc, some msrc, some _ =>
    .ok (setCol (setCol f FN.METADATA_SHEET (msc.map astypeStrOne))
      FN.METADATA_SOURCE (msrc.map astypeStrOne))
  | _, _, _ => .error "schema violation"

/-- `_validate_schema_pandera`: inject missing canonical columns as null,
restrict to the canonical set in canonical order, then validate. -/
def validate_schema_pandera (f : Frame) : Except String Frame :=
  paValidate (restrictCols (addMissing f (nRows f)))

/-- The Silver assembly line applied to one Bronze frame
(`_extract_target_columns` → `_calculate_missing_ipp` →
`_apply_global_cleaning` → `_validate_schema_pandera`). -/
def silverTransform (f : Frame) : Except String Frame :=
  (apply_global_cleaning (calculate_missing_ipp (extract_target_columns f))).bind
    validate_schema_pandera

/-- Successful results of a fallible step. -/
def exceptOk? : Except String Frame → Option Frame
  | .ok f => some f
  | .error _ => none

/-! ## File stores -/

/-- Name-keyed lookup in a directory/table modelled as an association list. -/
def lookupA {α : Type} : List (String × α) → String → Option α
  | [], _ => none
  | (n, a) :: rest, c => if n = c then some a else lookupA rest c

/-- `to_parquet` overwrite-or-create semantics on a directory. -/
def fsWrite {α : Type} : List (String × α) → String → α → List (String × α)
  | [], name, v => [(name, v)]
  | (n, g) :: rest, name, v =>
    if n = name then (name, v) :: rest else (n, g) :: fsWrite rest name v

/-! ## `make_gold.py`: typed Silver rows and feature/target engineering

The Gold stage reads typed Silver partitions; the columns it touches
(`RA`, `ano_dados`, `defasagem`) are integers there (see the cast theorems
below), so its frames are embedded as lists of typed records; the remaining
columns ride along unchanged and are not represented. -/

/-- One Silver record as seen by the Gold stage. -/
structure SilverRow where
  ra : Int
  ano : Int
  defasagem : Int
deriving DecidableEq, Repr

/-- A Silver record with the engineered forward label. -/
structure GoldRow where
  ra : Int
  ano : Int
  defasagem : Int
  target : Option Int
deriving DecidableEq, Repr

/-- A Gold record with the label column dropped (online-store schema). -/
structure OnlineRow where
  ra : Int
  ano : Int
  defasagem : Int
deriving DecidableEq, Repr

/-- The `sort_values(by=[RA, ano_dados])` key order: ascending student id,
then ascending year. -/
def rowLe (a b : SilverRow) : Prop :=
  a.ra < b.ra ∨ (a.ra = b.ra ∧ a.ano ≤ b.ano)

instance rowLeDec : DecidableRel rowLe := fun a b =>
  inferInstanceAs (Decidable (a.ra < b.ra ∨ (a.ra = b.ra ∧ a.ano ≤ b.ano)))

/-- `df.sort_values(by=[FN.RA, FN.ANO_DADOS])` (a sorted permutation; pandas
does not promise stability for the default sort and no theorem relies on it). -/
def sortValues (df : List SilverRow) : List SilverRow :=
  List.insertionSort rowLe df

/-- `groupby(RA)[defasagem].shift(-1)` looked up for one row: the `defasagem`
of the next later row of the same student, in frame order. -/
def nextInGroup (ra : Int) : List SilverRow → Option Int
  | [] => none
  | r :: rs => if r.ra = ra then some r.defasagem else nextInGroup ra rs

/-- The vectorised group-local shift: every row receives the `defasagem` of
the next row of its own `RA` group. -/
def groupShiftTargets : List SilverRow → List GoldRow
  | [] => []
  | r :: rs => ⟨r.ra, r.ano, r.defasagem, nextInGroup r.ra rs⟩ :: groupShiftTargets rs

/-- `engineer_features_and_target`: chronological sort, then the group-local
backward shift producing `target_defasagem`. -/
def engineer_features_and_target (df : List SilverRow) : List GoldRow :=
  groupShiftTargets (sortValues df)

/-- `drop_duplicates(subset=[RA], keep='last')`: keep a row iff no later row
has the same student id. -/
def dedupKeepLast : List GoldRow → List GoldRow
  | [] => []
  | r :: rs =>
    if rs.any (fun x => x.ra == r.ra) then dedupKeepLast rs
    else r :: dedupKeepLast rs

/-- Dropping the `target_defasagem` column of one row. -/
def dropTarget (g : GoldRow) : OnlineRow := ⟨g.ra, g.ano, g.defasagem⟩

/-- Forgetting the engineered label (projection back to the Silver columns). -/
def toSilver (g : GoldRow) : SilverRow := ⟨g.ra, g.ano, g.defasagem⟩

/-- The `sort_values` key order read on labelled rows. -/
def goldLe (a b : GoldRow) : Prop := rowLe (toSilver a) (toSilver b)

/-- `save_online_store`: deduplicate by student id keeping the last occurrence,
drop the label column, and write with `if_exists="replace"` — the previous
table contents (the second argument) are discarded wholesale. -/
def save_online_store (df : List GoldRow) (_oldTable : List OnlineRow) : List OnlineRow :=
  (dedupKeepLast df).map dropTarget

/-- `df.dropna(subset=[target])`: the training subset of the offline store. -/
def trainSubset (df : List GoldRow) : List GoldRow :=
  df.filter (fun g => g.target.isSome)

/-! ## `make_gold.py`: the Silver-partition loader and its glob -/

/-- Suffix test, structurally. -/
def endsWithL (s pat : List Char) : Bool := startsWithL s.reverse pat.reverse

/-- Semantics of the loader's glob `alunos_*_clean.parquet`: a fixed prefix,
a fixed suffix, and `*` matching any (possibly empty) run in between. -/
def goldGlobMatch (name : String) : Bool :=
  startsWithL name.data "alunos_".data && endsWithL name.data "_clean.parquet".data &&
    decide ("alunos_".data.length + "_clean.parquet".data.length ≤ name.data.length)

/-- The partition filename written by the Silver stage:
`silver_<year>.parquet`. -/
def silverPartitionName (year : String) : String := "silver_" ++ year ++ ".parquet"

/-- `load_silver_data`: glob the Silver directory for `alunos_*_clean.parquet`,
raise `FileNotFoundError` when nothing matches, else concatenate all matches. -/
def load_silver_data (silverDir : List (String × List SilverRow)) :
    Except String (List SilverRow) :=
  let files := silverDir.filter (fun p => goldGlobMatch p.1)
  if files.isEmpty then .error "No Parquet files found in the Silver layer."
  else .ok ((files.map Prod.snd).flatten)

/-! ## `make_silver.py`: orchestration (skip-if-exists loop) -/

/-- Observable side effects of one loop iteration of `make_silver.main`. -/
inductive Effect where
  | logSkip (file : String) : Effect
  | transformed (file : String) : Effect
  | driftChecked (year : String) : Effect
  | wrote (path : String) : Effect
deriving DecidableEq, Repr

/-- The mutable state of a Silver reconciliation run: the Silver directory,
the in-memory historical baseline, and the effect trace. -/
structure SilverState where
  silver : List (String × Frame)
  baseline : Frame
  log : List Effect
deriving DecidableEq, Repr

/-- `re.search(r"\d{4}", file_name)` with fallback `"unknown"`. -/
def batchYearOf (fileName : String) : String :=
  match findYear4 fileName.data with
  | some ds => ⟨ds⟩
  | none => "unknown"

/-- One iteration of the `for file_path in bronze_files` loop of
`make_silver.main`. The assembly line and the baseline-update rule are passed
in as functions (`transform` is instantiated with `silverTransform`); the
skip decision, write target and effect order are the source's. -/
def processFile (transform : Frame → Except String Frame)
    (updBaseline : Frame → Frame → String → Frame) (isColdStart : Bool)
    (st : SilverState) (fileName : String) (df : Frame) : Except String SilverState :=
  let year := batchYearOf fileName
  let target := silverPartitionName year
  if (lookupA st.silver target).isSome then
    .ok { st with log := st.log ++ [.logSkip fileName] }
  else
    match transform df with
    | .error e => .error e
    | .ok validated =>
      .ok { silver := fsWrite st.silver target validated,
            baseline := updBaseline st.baseline validated year,
            log := st.log ++ [.transformed fileName] ++
              (if isColdStart then [] else [.driftChecked year]) ++ [.wrote target] }

/-- The whole per-file loop over the Bronze directory listing. -/
def runSilverFiles (transform : Frame → Except String Frame)
    (updBaseline : Frame → Frame → String → Frame) (isColdStart : Bool) :
    SilverState → List (String × Frame) → Except String SilverState
  | st, [] => .ok st
  | st, (name, df) :: rest =>
    match processFile transform updBaseline isColdStart st name df with
    | .error e => .error e
    | .ok st' => runSilverFiles transform updBaseline isColdStart st' rest

/-! ## `make_bronze.py`: ingestion -/

/-- One landing-zone workbook: file name and its sheets' raw rows. -/
structure SourceFile where
  name : String
  sheets : List (String × List (List Val))
deriving DecidableEq, Repr

/-- One Bronze parquet: provenance metadata plus all cell values cast to
string (`df.astype(str)`); the wall-clock ingestion timestamp is not
modelled. -/
structure BronzeFrame where
  source : String
  sheet : String
  rows : List (List String)
deriving DecidableEq, Repr

/-- `bronze_<sheet>.parquet`. -/
def bronzeName (sheet : String) : String := "bronze_" ++ sheet ++ ".parquet"

/-- Metadata tagging and stringification of one sheet. -/
def tagSheet (srcName sheetName : String) (rows : List (List Val)) : BronzeFrame :=
  ⟨srcName, sheetName, rows.map (fun r => r.map pyStr)⟩

/-- Processing of all sheets of one source file: each sheet is written to
`bronze_<sheet>.parquet`, overwriting any file of the same name. -/
def ingestFile (store : List (String × BronzeFrame)) (src : SourceFile) :
    List (String × BronzeFrame) :=
  src.sheets.foldl
    (fun acc sh => fsWrite acc (bronzeName sh.1) (tagSheet src.name sh.1 sh.2)) store

/-- `make_bronze.main` restricted to its Bronze-directory effect: ingest every
landing file in order. -/
def make_bronze_main (landing : List SourceFile)
    (store : List (String × BronzeFrame)) : List (String × BronzeFrame) :=
  landing.foldl ingestFile store

end Datathon

namespace Datathon

/-! ## Concrete fixtures used by witnesses and counterexamples -/

/-- A Bronze batch frame carrying the same student twice (fixture for the
duplicate-key behaviour of the Silver stage). -/
def dupFC5 : Frame :=
  [("  RA ", [.str "RA-1234", .str "RA-1234"]),
   ("Fase ", [.str "ALFA", .str "FASE 8"]),
   (" Idade 23 ", [.str "10", .str "1900-01-21"]),
   ("Gênero", [.str "Menina", .str "Masculino"]),
   ("Ano ingresso", [.str "2021", .str "2022"]),
   ("Instituição de ensino", [.str "Escola Pública", .str "Privada"]),
   ("Pedra 23", [.str "Ametista", .str "Topázio"]),
   ("INDE 2023", [.str "8.5", .str "7.2"]),
   ("iaa", [.str "9.0", .str "8.0"]),
   ("ieg", [.str "10.0", .str "7.5"]),
   ("ips", [.str "8.0", .str "7.0"]),
   ("ida", [.str "9.5", .str "8.5"]),
   ("ipv", [.str "7.0", .str "6.5"]),
   ("ian", [.str "8.0", .str "9.0"]),
   ("ipp", [.na, .na]),
   ("Defasagem", [.str "0", .str "1"]),
   ("metadata_sheet", [.str "PEDE2023", .str "PEDE2023"]),
   ("metadata_source", [.str "arquivo_2023.xlsx", .str "arquivo_2023.xlsx"])]

/-- The spec's first IPP vector: INDE 8.0, IAN 7.0, IDA 8.0, IEG 9.0, IAA 8.0,
IPS 7.0, IPV 8.0, IPP absent. -/
def ippVec1 : Frame :=
  [(FN.INDE, [.numv (Q.ofInt 8)]), (FN.IAN, [.numv (Q.ofInt 7)]),
   (FN.IDA, [.numv (Q.ofInt 8)]), (FN.IEG, [.numv (Q.ofInt 9)]),
   (FN.IAA, [.numv (Q.ofInt 8)]), (FN.IPS, [.numv (Q.ofInt 7)]),
   (FN.IPV, [.numv (Q.ofInt 8)]), (FN.IPP, [.na])]

/-- The spec's second IPP vector: INDE 7.5, IAN 5.0, IDA 6.0, IEG 8.0,
IAA 7.0, IPS 6.0, IPV 7.0, IPP absent. -/
def ippVec2 : Frame :=
  [(FN.INDE, [.numv (mkQ 15 2)]), (FN.IAN, [.numv (Q.ofInt 5)]),
   (FN.IDA, [.numv (Q.ofInt 6)]), (FN.IEG, [.numv (Q.ofInt 8)]),
   (FN.IAA, [.numv (Q.ofInt 7)]), (FN.IPS, [.numv (Q.ofInt 6)]),
   (FN.IPV, [.numv (Q.ofInt 7)]), (FN.IPP, [.na])]

/-- An unsorted three-record history: student 1 in 2023 and 2022, student 2
in 2023. -/
def exDfC1 : List SilverRow := [⟨1, 2023, -1⟩, ⟨1, 2022, 0⟩, ⟨2, 2023, 1⟩]

/-- A two-year history for one student (fixture for the online store). -/
def exDfC3 : List SilverRow := [⟨1, 2022, 0⟩, ⟨1, 2023, -1⟩]

/-- The Silver partition the pipeline persists for `dupFC5` (the value of
`silverTransform dupFC5`), spelled out. -/
def silverOutC5 : Frame :=
  [("RA", [.intv 1234, .intv 1234]),
   ("fase", [.intv 0, .intv 8]),
   ("idade", [.intv 10, .intv 21]),
   ("genero", [.str "F", .str "M"]),
   ("anos_na_instituicao", [.intv 2, .intv 1]),
   ("instituicao", [.str "Pública", .str "Privada"]),
   ("pedra_atual", [.str "Ametista", .str "Topázio"]),
   ("inde_atual", [.numv ⟨17, 2⟩, .numv ⟨36, 5⟩]),
   ("indicador_auto_avaliacao", [.numv ⟨9, 1⟩, .numv ⟨8, 1⟩]),
   ("indicador_engajamento", [.numv ⟨10, 1⟩, .numv ⟨15, 2⟩]),
   ("indicador_psicossocial", [.numv ⟨8, 1⟩, .numv ⟨7, 1⟩]),
   ("indicador_aprendizagem", [.numv ⟨19, 2⟩, .numv ⟨17, 2⟩]),
   ("indicador_ponto_virada", [.numv ⟨7, 1⟩, .numv ⟨13, 2⟩]),
   ("indicador_adequacao_nivel", [.numv ⟨8, 1⟩, .numv ⟨9, 1⟩]),
   ("indicador_psico_pedagogico", [.numv ⟨7, 1⟩, .numv ⟨3, 1⟩]),
   ("defasagem", [.intv 0, .intv 1]),
   ("ano_dados", [.intv 2023, .intv 2023]),
   ("metadata_source", [.str "arquivo_2023.xlsx", .str "arquivo_2023.xlsx"]),
   ("metadata_sheet", [.str "PEDE2023", .str "PEDE2023"])]

/-- A batch whose age value `"Dezoito"` survives `clean_idade` as a string,
so the `.astype(int)` cast must raise. -/
def badC10a : Frame :=
  [("  RA ", [.str "RA-1234"]),
   ("Fase ", [.str "ALFA"]),
   (" Idade 23 ", [.str "Dezoito"]),
   ("Gênero", [.str "Menina"]),
   ("Ano ingresso", [.str "2021"]),
   ("Instituição de ensino", [.str "Escola Pública"]),
   ("Pedra 23", [.str "Ametista"]),
   ("INDE 2023", [.str "8.5"]),
   ("iaa", [.str "9.0"]),
   ("ieg", [.str "10.0"]),
   ("ips", [.str "8.0"]),
   ("ida", [.str "9.5"]),
   ("ipv", [.str "7.0"]),
   ("ian", [.str "8.0"]),
   ("ipp", [.na]),
   ("Defasagem", [.str "0"]),
   ("metadata_sheet", [.str "PEDE2023"]),
   ("metadata_source", [.str "arquivo_2023.xlsx"])]

/-- A batch with no defasagem column at all: extraction null-fills it, so the
`.astype(int)` cast must raise. -/
def badC10b : Frame :=
  [("  RA ", [.str "RA-1234"]),
   ("Fase ", [.str "ALFA"]),
   (" Idade 23 ", [.str "10"]),
   ("Gênero", [.str "Menina"]),
   ("Ano ingresso", [.str "2021"]),
   ("Instituição de ensino", [.str "Escola Pública"]),
   ("Pedra 23", [.str "Ametista"]),
   ("INDE 2023", [.str "8.5"]),
   ("iaa", [.str "9.0"]),
   ("ieg", [.str "10.0"]),
   ("ips", [.str "8.0"]),
   ("ida", [.str "9.5"]),
   ("ipv", [.str "7.0"]),
   ("ian", [.str "8.0"]),
   ("ipp", [.na]),
   ("metadata_sheet", [.str "PEDE2023"]),
   ("metadata_source", [.str "arquivo_2023.xlsx"])]

/-- A frame whose IPP column already carries a value (9.99). -/
def ippVecPresent : Frame :=
  [(FN.INDE, [.numv (Q.ofInt 8)]), (FN.IAN, [.numv (Q.ofInt 7)]),
   (FN.IDA, [.numv (Q.ofInt 8)]), (FN.IEG, [.numv (Q.ofInt 9)]),
   (FN.IAA, [.numv (Q.ofInt 8)]), (FN.IPS, [.numv (Q.ofInt 7)]),
   (FN.IPV, [.numv (Q.ofInt 8)]), (FN.IPP, [.numv (mkQ 999 100)])]

/-! ## Helper lemmas about columns and stores -/

theorem isNaB_eq_true {v : Val} : isNaB v = true ↔ v = .na := by
  cases v <;> simp [isNaB]

theorem findCol_setCol_self (f : Frame) (c : String) (col : List Val) :
    findCol (setCol f c col) c = some col := by
  induction f with
  | nil => simp [setCol, findCol]
  | cons p rest ih =>
    obtain ⟨n, old⟩ := p
    by_cases h : n = c
    · simp [setCol, h, findCol]
    · simp [setCol, h, findCol, ih]

theorem findCol_setCol_other {c c' : String} (h : c' ≠ c) (f : Frame) (col : List Val) :
    findCol (setCol f c col) c' = findCol f c' := by
  induction f with
  | nil => simp [setCol, findCol, h, Ne.symm h]
  | cons p rest ih =>
    obtain ⟨n, old⟩ := p
    by_cases hn : n = c
    · simp [setCol, findCol, hn, Ne.symm h]
    · by_cases hn' : n = c'
      · simp [setCol, findCol, hn, hn', h]
      · simp [setCol, findCol, hn, hn', ih]

/-! ## C8: `clean_idade` behaviour -/

/-- C8: `clean_idade` extracts the day 15 from the spreadsheet-epoch date
`"1900-01-15 00:00:00"`, parses `"18.0"` to the integer 18, and returns the
unparseable `"Dezoito"` unchanged rather than null. -/
theorem clean_idade_spec :
    clean_idade (.str "1900-01-15 00:00:00") = .intv 15 ∧
    clean_idade (.str "18.0") = .intv 18 ∧
    clean_idade (.str "Dezoito") = .str "Dezoito" :=
  ⟨by decide, by decide, by decide⟩

/-! ## C4: IPP reconstruction -/

/-- C4: `_calculate_missing_ipp` is the identity whenever any IPP value is
present (all values preserved), and when every IPP value is null it fills the
column with `(INDE − (IAN·0.1 + IDA·0.2 + IEG·0.2 + IAA·0.1 + IPS·0.1 +
IPV·0.2)) / 0.1` rounded to 3 decimals, pointwise over the numerically
coerced columns; on the spec's vectors this yields IPP = 8.0 and IPP = 15.0. -/
theorem ipp_reconstruction_spec :
    (∀ f : Frame, (∃ v ∈ colOf f FN.IPP, v ≠ Val.na) → calculate_missing_ipp f = f) ∧
    (∀ f : Frame, (∀ v ∈ colOf f FN.IPP, v = Val.na) →
      colOf (calculate_missing_ipp f) FN.IPP =
        (ippColumn
          (colOf (coerceCols f [FN.INDE, FN.IAN, FN.IDA, FN.IEG, FN.IAA, FN.IPS, FN.IPV]) FN.INDE)
          (colOf (coerceCols f [FN.INDE, FN.IAN, FN.IDA, FN.IEG, FN.IAA, FN.IPS, FN.IPV]) FN.IAN)
          (colOf (coerceCols f [FN.INDE, FN.IAN, FN.IDA, FN.IEG, FN.IAA, FN.IPS, FN.IPV]) FN.IDA)
          (colOf (coerceCols f [FN.INDE, FN.IAN, FN.IDA, FN.IEG, FN.IAA, FN.IPS, FN.IPV]) FN.IEG)
          (colOf (coerceCols f [FN.INDE, FN.IAN, FN.IDA, FN.IEG, FN.IAA, FN.IPS, FN.IPV]) FN.IAA)
          (colOf (coerceCols f [FN.INDE, FN.IAN, FN.IDA, FN.IEG, FN.IAA, FN.IPS, FN.IPV]) FN.IPS)
          (colOf (coerceCols f [FN.INDE, FN.IAN, FN.IDA, FN.IEG, FN.IAA, FN.IPS, FN.IPV]) FN.IPV))) ∧
    colOf (calculate_missing_ipp ippVec1) FN.IPP = [Val.numv (Q.ofInt 8)] ∧
    colOf (calculate_missing_ipp ippVec2) FN.IPP = [Val.numv (Q.ofInt 15)] ∧
    calculate_missing_ipp ippVecPresent = ippVecPresent := by
  refine ⟨?_, ?_, by decide, by decide, by decide⟩
  · intro f hv
    obtain ⟨v, hv, hne⟩ := hv
    have hall : (colOf f FN.IPP).all isNaB = false := by
      cases hall : (colOf f FN.IPP).all isNaB with
      | false => rfl
      | true =>
        exact absurd (isNaB_eq_true.mp ((List.all_eq_true.mp hall) v hv)) hne
    simp [calculate_missing_ipp, hall]
  · intro f hv
    have hall : (colOf f FN.IPP).all isNaB = true :=
      List.all_eq_true.mpr (fun v hmem => isNaB_eq_true.mpr (hv v hmem))
    simp only [calculate_missing_ipp, hall, if_pos]
    simp [colOf, findCol_setCol_self]

/-- Witness for C4: the skip branch at a concrete frame with IPP present. -/
theorem ipp_reconstruction_spec_witness :
    calculate_missing_ipp
      [(FN.IPP, [Val.numv (mkQ 999 100)]), (FN.INDE, [Val.numv (Q.ofInt 8)])] =
      [(FN.IPP, [Val.numv (mkQ 999 100)]), (FN.INDE, [Val.numv (Q.ofInt 8)])] :=
  ipp_reconstruction_spec.1 _
    ⟨Val.numv (mkQ 999 100), by decide, by decide⟩

end Datathon

namespace Datathon

/-! ## C6: schema validation on a minimal input -/

theorem map_astypeStrOne_id {l : List Val} (h : ∀ v ∈ l, ∃ s, v = Val.str s) :
    l.map astypeStrOne = l := by
  induction l with
  | nil => rfl
  | cons v vs ih =>
    obtain ⟨s, rfl⟩ := h v (by simp)
    simp only [List.map_cons, astypeStrOne, pyStr]
    exact congrArg _ (ih (fun w hw => h w (by simp [hw])))

/-- C6: `_validate_schema_pandera` on a frame holding only the student id and
the two provenance columns yields every canonical column, restricted to the
canonical set in canonical order, with all non-id non-metadata fields null
and existing values preserved. -/
theorem validate_schema_minimal_input (raVals msVals srcVals : List Val)
    (hms : ∀ v ∈ msVals, ∃ s, v = Val.str s)
    (hsrc : ∀ v ∈ srcVals, ∃ s, v = Val.str s) :
    validate_schema_pandera
      [(FN.RA, raVals), (FN.METADATA_SHEET, msVals), (FN.METADATA_SOURCE, srcVals)] =
    .ok
      [(FN.RA, raVals),
       (FN.FASE, List.replicate raVals.length Val.na),
       (FN.IDADE, List.replicate raVals.length Val.na),
       (FN.GENERO, List.replicate raVals.length Val.na),
       (FN.ANOS_NA_INSTITUICAO, List.replicate raVals.length Val.na),
       (FN.INSTITUICAO, List.replicate raVals.length Val.na),
       (FN.PEDRA_ATUAL, List.replicate raVals.length Val.na),
       (FN.INDE, List.replicate raVals.length Val.na),
       (FN.IAA, List.replicate raVals.length Val.na),
       (FN.IEG, List.replicate raVals.length Val.na),
       (FN.IPS, List.replicate raVals.length Val.na),
       (FN.IDA, List.replicate raVals.length Val.na),
       (FN.IPV, List.replicate raVals.length Val.na),
       (FN.IAN, List.replicate raVals.length Val.na),
       (FN.IPP, List.replicate raVals.length Val.na),
       (FN.DEFASAGEM, List.replicate raVals.length Val.na),
       (FN.ANO_DADOS, List.replicate raVals.length Val.na),
       (FN.METADATA_SOURCE, srcVals),
       (FN.METADATA_SHEET, msVals)] := by
  have hadd : addMissing
      [(FN.RA, raVals), (FN.METADATA_SHEET, msVals), (FN.METADATA_SOURCE, srcVals)]
      raVals.length =
    [(FN.RA, raVals), (FN.METADATA_SHEET, msVals), (FN.METADATA_SOURCE, srcVals),
     (FN.FASE, List.replicate raVals.length Val.na),
     (FN.IDADE, List.replicate raVals.length Val.na),
     (FN.GENERO, List.replicate raVals.length Val.na),
     (FN.ANOS_NA_INSTITUICAO, List.replicate raVals.length Val.na),
     (FN.INSTITUICAO, List.replicate raVals.length Val.na),
     (FN.PEDRA_ATUAL, List.replicate raVals.length Val.na),
     (FN.INDE, List.replicate raVals.length Val.na),
     (FN.IAA, List.replicate raVals.length Val.na),
     (FN.IEG, List.replicate raVals.length Val.na),
     (FN.IPS, List.replicate raVals.length Val.na),
     (FN.IDA, List.replicate raVals.length Val.na),
     (FN.IPV, List.replicate raVals.length Val.na),
     (FN.IAN, List.replicate raVals.length Val.na),
     (FN.IPP, List.replicate raVals.length Val.na),
     (FN.DEFASAGEM, List.replicate raVals.length Val.na),
     (FN.ANO_DADOS, List.replicate raVals.length Val.na)] := by
    simp [addMissing, COLUMNS_TO_KEEP, findCol, FN.RA, FN.FASE, FN.IDADE, FN.GENERO,
      FN.ANOS_NA_INSTITUICAO, FN.INSTITUICAO, FN.PEDRA_ATUAL, FN.INDE, FN.IAA, FN.IEG,
      FN.IPS, FN.IDA, FN.IPV, FN.IAN, FN.IPP, FN.DEFASAGEM, FN.ANO_DADOS,
      FN.METADATA_SOURCE, FN.METADATA_SHEET]
  have hres : restrictCols
      [(FN.RA, raVals), (FN.METADATA_SHEET, msVals), (FN.METADATA_SOURCE, srcVals),
     (FN.FASE, List.replicate raVals.length Val.na),
     (FN.IDADE, List.replicate raVals.length Val.na),
     (FN.GENERO, List.replicate raVals.length Val.na),
     (FN.ANOS_NA_INSTITUICAO, List.replicate raVals.length Val.na),
     (FN.INSTITUICAO, List.replicate raVals.length Val.na),
     (FN.PEDRA_ATUAL, List.replicate raVals.length Val.na),
     (FN.INDE, List.replicate raVals.length Val.na),
     (FN.IAA, List.replicate raVals.length Val.na),
     (FN.IEG, List.replicate raVals.length Val.na),
     (FN.IPS, List.replicate raVals.length Val.na),
     (FN.IDA, List.replicate raVals.length Val.na),
     (FN.IPV, List.replicate raVals.length Val.na),
     (FN.IAN, List.replicate raVals.length Val.na),
     (FN.IPP, List.replicate raVals.length Val.na),
     (FN.DEFASAGEM, List.replicate raVals.length Val.na),
     (FN.ANO_DADOS, List.replicate raVals.length Val.na)] =
    [(FN.RA, raVals),
     (FN.FASE, List.replicate raVals.length Val.na),
     (FN.IDADE, List.replicate raVals.length Val.na),
     (FN.GENERO, List.replicate raVals.length Val.na),
     (FN.ANOS_NA_INSTITUICAO, List.replicate raVals.length Val.na),
     (FN.INSTITUICAO, List.replicate raVals.length Val.na),
     (FN.PEDRA_ATUAL, List.replicate raVals.length Val.na),
     (FN.INDE, List.replicate raVals.length Val.na),
     (FN.IAA, List.replicate raVals.length Val.na),
     (FN.IEG, List.replicate raVals.length Val.na),
     (FN.IPS, List.replicate raVals.length Val.na),
     (FN.IDA, List.replicate raVals.length Val.na),
     (FN.IPV, List.replicate raVals.length Val.na),
     (FN.IAN, List.replicate raVals.length Val.na),
     (FN.IPP, List.replicate raVals.length Val.na),
     (FN.DEFASAGEM, List.replicate raVals.length Val.na),
     (FN.ANO_DADOS, List.replicate raVals.length Val.na),
     (FN.METADATA_SOURCE, srcVals),
     (FN.METADATA_SHEET, msVals)] := by
    simp [restrictCols, COLUMNS_TO_KEEP, findCol, FN.RA, FN.FASE, FN.IDADE, FN.GENERO,
      FN.ANOS_NA_INSTITUICAO, FN.INSTITUICAO, FN.PEDRA_ATUAL, FN.INDE, FN.IAA, FN.IEG,
      FN.IPS, FN.IDA, FN.IPV, FN.IAN, FN.IPP, FN.DEFASAGEM, FN.ANO_DADOS,
      FN.METADATA_SOURCE, FN.METADATA_SHEET]
  have hval : paValidate
      [(FN.RA, raVals),
     (FN.FASE, List.replicate raVals.length Val.na),
     (FN.IDADE, List.replicate raVals.length Val.na),
     (FN.GENERO, List.replicate raVals.length Val.na),
     (FN.ANOS_NA_INSTITUICAO, List.replicate raVals.length Val.na),
     (FN.INSTITUICAO, List.replicate raVals.length Val.na),
     (FN.PEDRA_ATUAL, List.replicate raVals.length Val.na),
     (FN.INDE, List.replicate raVals.length Val.na),
     (FN.IAA, List.replicate raVals.length Val.na),
     (FN.IEG, List.replicate raVals.length Val.na),
     (FN.IPS, List.replicate raVals.length Val.na),
     (FN.IDA, List.replicate raVals.length Val.na),
     (FN.IPV, List.replicate raVals.length Val.na),
     (FN.IAN, List.replicate raVals.length Val.na),
     (FN.IPP, List.replicate raVals.length Val.na),
     (FN.DEFASAGEM, List.replicate raVals.length Val.na),
     (FN.ANO_DADOS, List.replicate raVals.length Val.na),
       (FN.METADATA_SOURCE, srcVals),
       (FN.METADATA_SHEET, msVals)] =
    .ok
      [(FN.RA, raVals),
     (FN.FASE, List.replicate raVals.length Val.na),
     (FN.IDADE, List.replicate raVals.length Val.na),
     (FN.GENERO, List.replicate raVals.length Val.na),
     (FN.ANOS_NA_INSTITUICAO, List.replicate raVals.length Val.na),
     (FN.INSTITUICAO, List.replicate raVals.length Val.na),
     (FN.PEDRA_ATUAL, List.replicate raVals.length Val.na),
     (FN.INDE, List.replicate raVals.length Val.na),
     (FN.IAA, List.replicate raVals.length Val.na),
     (FN.IEG, List.replicate raVals.length Val.na),
     (FN.IPS, List.replicate raVals.length Val.na),
     (FN.IDA, List.replicate raVals.length Val.na),
     (FN.IPV, List.replicate raVals.length Val.na),
     (FN.IAN, List.replicate raVals.length Val.na),
     (FN.IPP, List.replicate raVals.length Val.na),
     (FN.DEFASAGEM, List.replicate raVals.length Val.na),
     (FN.ANO_DADOS, List.replicate raVals.length Val.na),
       (FN.METADATA_SOURCE, srcVals.map astypeStrOne),
       (FN.METADATA_SHEET, msVals.map astypeStrOne)] := by
    simp [paValidate, findCol, setCol, FN.RA, FN.FASE, FN.IDADE, FN.GENERO,
      FN.ANOS_NA_INSTITUICAO, FN.INSTITUICAO, FN.PEDRA_ATUAL, FN.INDE, FN.IAA, FN.IEG,
      FN.IPS, FN.IDA, FN.IPV, FN.IAN, FN.IPP, FN.DEFASAGEM, FN.ANO_DADOS,
      FN.METADATA_SOURCE, FN.METADATA_SHEET]
  simp only [validate_schema_pandera, nRows]
  rw [hadd, hres, hval, map_astypeStrOne_id hms, map_astypeStrOne_id hsrc]

/-- Witness for C6 at the repository test's concrete minimal frame. -/
theorem validate_schema_minimal_input_witness :
    validate_schema_pandera
      [(FN.RA, [Val.str "12345"]), (FN.METADATA_SHEET, [Val.str "PEDE2023"]),
       (FN.METADATA_SOURCE, [Val.str "file.xlsx"])] =
    .ok
      [(FN.RA, [Val.str "12345"]),
       (FN.FASE, [Val.na]), (FN.IDADE, [Val.na]), (FN.GENERO, [Val.na]),
       (FN.ANOS_NA_INSTITUICAO, [Val.na]), (FN.INSTITUICAO, [Val.na]),
       (FN.PEDRA_ATUAL, [Val.na]), (FN.INDE, [Val.na]), (FN.IAA, [Val.na]),
       (FN.IEG, [Val.na]), (FN.IPS, [Val.na]), (FN.IDA, [Val.na]),
       (FN.IPV, [Val.na]), (FN.IAN, [Val.na]), (FN.IPP, [Val.na]),
       (FN.DEFASAGEM, [Val.na]), (FN.ANO_DADOS, [Val.na]),
       (FN.METADATA_SOURCE, [Val.str "file.xlsx"]),
       (FN.METADATA_SHEET, [Val.str "PEDE2023"])] :=
  validate_schema_minimal_input [Val.str "12345"] [Val.str "PEDE2023"] [Val.str "file.xlsx"]
    (fun v hv => ⟨"PEDE2023", by simpa using hv⟩)
    (fun v hv => ⟨"file.xlsx", by simpa using hv⟩)

/-! ## C2: the Gold loader's glob never matches a Silver partition -/

theorem silverName_no_glob (year : String) :
    goldGlobMatch (silverPartitionName year) = false := by
  have hd : (silverPartitionName year).data
      = 's' :: 'i' :: 'l' :: 'v' :: 'e' :: 'r' :: '_' :: (year.data ++ ".parquet".data) := by
    simp [silverPartitionName, String.data_append]
  simp [goldGlobMatch, hd, startsWithL]

/-- C2 (refuting theorem): `load_silver_data` applied to a Silver directory
populated exclusively with the Silver stage's own `silver_<year>.parquet`
partitions matches no file and raises `FileNotFoundError` — no partition's
rows are ever included in the combined frame. -/
theorem gold_loader_misses_silver_partitions (store : List (String × List SilverRow))
    (h : ∀ p ∈ store, ∃ year, p.1 = silverPartitionName year) :
    load_silver_data store = .error "No Parquet files found in the Silver layer." := by
  have hfil : store.filter (fun p => goldGlobMatch p.1) = [] := by
    rw [List.filter_eq_nil_iff]
    intro p hp
    obtain ⟨year, hy⟩ := h p hp
    simp [hy, silverName_no_glob]
  simp [load_silver_data, hfil]

/-- Witness for C2: the loader fails on a directory holding exactly the
partition a Silver run writes for year 2022. -/
theorem gold_loader_misses_silver_partitions_witness :
    load_silver_data [(silverPartitionName "2022", ([] : List SilverRow))] =
      .error "No Parquet files found in the Silver layer." :=
  gold_loader_misses_silver_partitions _
    (fun p hp => ⟨"2022", by simpa using congrArg Prod.fst (List.mem_singleton.mp hp)⟩)

end Datathon

namespace Datathon

/-! ## C9: Bronze files are keyed by sheet name -/

theorem mem_fsWrite {α : Type} {store : List (String × α)} {name : String} {v : α}
    {p : String × α} (hp : p ∈ fsWrite store name v) : p = (name, v) ∨ p ∈ store := by
  induction store with
  | nil => simpa [fsWrite] using hp
  | cons q rest ih =>
    obtain ⟨n, g⟩ := q
    by_cases h : n = name
    · rw [fsWrite, if_pos h] at hp
      rcases List.mem_cons.mp hp with h' | h'
      · exact Or.inl h'
      · exact Or.inr (List.mem_cons_of_mem _ h')
    · rw [fsWrite, if_neg h] at hp
      rcases List.mem_cons.mp hp with h' | h'
      · exact Or.inr (h' ▸ List.mem_cons_self _ _)
      · rcases ih h' with h'' | h''
        · exact Or.inl h''
        · exact Or.inr (List.mem_cons_of_mem _ h'')

theorem mem_ingest_aux (srcName : String) (sheets : List (String × List (List Val)))
    (store : List (String × BronzeFrame)) (p : String × BronzeFrame)
    (hp : p ∈ sheets.foldl
      (fun acc sh => fsWrite acc (bronzeName sh.1) (tagSheet srcName sh.1 sh.2)) store) :
    p ∈ store ∨ ∃ sh ∈ sheets, p = (bronzeName sh.1, tagSheet srcName sh.1 sh.2) := by
  induction sheets generalizing store with
  | nil => exact Or.inl hp
  | cons sh rest ih =>
    rw [List.foldl_cons] at hp
    rcases ih (fsWrite store (bronzeName sh.1) (tagSheet srcName sh.1 sh.2)) hp with h | h
    · rcases mem_fsWrite h with h' | h'
      · exact Or.inr ⟨sh, by simp, h'⟩
      · exact Or.inl h'
    · obtain ⟨sh', hsh', heq⟩ := h
      exact Or.inr ⟨sh', by simp [hsh'], heq⟩

theorem mem_make_bronze_aux (landing : List SourceFile)
    (store : List (String × BronzeFrame)) (p : String × BronzeFrame)
    (hp : p ∈ make_bronze_main landing store) :
    p ∈ store ∨ ∃ src ∈ landing, ∃ sh ∈ src.sheets,
      p = (bronzeName sh.1, tagSheet src.name sh.1 sh.2) := by
  induction landing generalizing store with
  | nil => exact Or.inl hp
  | cons src rest ih =>
    rw [make_bronze_main, List.foldl_cons] at hp
    rcases ih (ingestFile store src) hp with h | h
    · rcases mem_ingest_aux src.name src.sheets store p h with h' | h'
      · exact Or.inl h'
      · obtain ⟨sh, hsh, he⟩ := h'
        exact Or.inr ⟨src, by simp, sh, hsh, he⟩
    · obtain ⟨src', hs', rest'⟩ := h
      exact Or.inr ⟨src', by simp [hs'], rest'⟩

/-- C9 counterexample: ingesting two source batches that share the sheet name
`"S"` leaves a single Bronze file — not one distinct file per
(source file, sheet) combination (there are two such combinations here) — and
that file holds only the later source's records. -/
theorem bronze_shared_sheet_counterexample :
    (make_bronze_main
      [⟨"a.xlsx", [("S", [[Val.str "x"]])]⟩, ⟨"b.xlsx", [("S", [[Val.str "y"]])]⟩]
      []).length = 1 ∧
    make_bronze_main
      [⟨"a.xlsx", [("S", [[Val.str "x"]])]⟩, ⟨"b.xlsx", [("S", [[Val.str "y"]])]⟩] [] =
      [("bronze_S.parquet", ⟨"b.xlsx", "S", [["y"]]⟩)] :=
  ⟨by decide, by decide⟩

/-- C9 (amended): Bronze output files are keyed by sheet name alone. Every
file in the Bronze store after an ingestion run is `bronze_<sheet>.parquet`
for some (source, sheet) pair of the run and holds exactly that pair's tagged
records — records of two sources never mix inside one file; and when sheet
names do not collide (second conjunct's concrete run), there is one distinct
file per (source file, sheet) combination. -/
theorem bronze_single_source_per_file :
    (∀ landing : List SourceFile, ∀ p ∈ make_bronze_main landing [],
      ∃ src ∈ landing, ∃ sh ∈ src.sheets,
        p = (bronzeName sh.1, tagSheet src.name sh.1 sh.2)) ∧
    make_bronze_main
      [⟨"a.xlsx", [("S", [[Val.str "x"]])]⟩, ⟨"b.xlsx", [("T", [[Val.str "y"]])]⟩] [] =
      [("bronze_S.parquet", ⟨"a.xlsx", "S", [["x"]]⟩),
       ("bronze_T.parquet", ⟨"b.xlsx", "T", [["y"]]⟩)] := by
  refine ⟨?_, by decide⟩
  intro landing p hp
  rcases mem_make_bronze_aux landing [] p hp with h | h
  · simp at h
  · exact h

/-- Witness for C9's amended theorem at a one-file landing zone. -/
theorem bronze_single_source_per_file_witness :
    ∃ src ∈ ([⟨"a.xlsx", [("S", [[Val.str "x"]])]⟩] : List SourceFile),
      ∃ sh ∈ src.sheets,
        (("bronze_S.parquet", ⟨"a.xlsx", "S", [["x"]]⟩) : String × BronzeFrame) =
          (bronzeName sh.1, tagSheet src.name sh.1 sh.2) :=
  bronze_single_source_per_file.1 [⟨"a.xlsx", [("S", [[Val.str "x"]])]⟩]
    ("bronze_S.parquet", ⟨"a.xlsx", "S", [["x"]]⟩) (by decide)

/-! ## C7: skip-if-exists in the Silver orchestration -/

theorem lookupA_fsWrite_self {α : Type} (store : List (String × α)) (name : String) (v : α) :
    lookupA (fsWrite store name v) name = some v := by
  induction store with
  | nil => simp [fsWrite, lookupA]
  | cons q rest ih =>
    obtain ⟨n, g⟩ := q
    by_cases h : n = name
    · simp [fsWrite, h, lookupA]
    · simp [fsWrite, h, lookupA, ih]

theorem lookupA_fsWrite_other {α : Type} {name name' : String} (h : name' ≠ name)
    (store : List (String × α)) (v : α) :
    lookupA (fsWrite store name v) name' = lookupA store name' := by
  induction store with
  | nil => simp [fsWrite, lookupA, h, Ne.symm h]
  | cons q rest ih =>
    obtain ⟨n, g⟩ := q
    by_cases hn : n = name
    · simp [fsWrite, hn, lookupA, Ne.symm h]
    · by_cases hn' : n = name'
      · simp [fsWrite, hn, lookupA, hn', h]
      · simp [fsWrite, hn, lookupA, hn', ih]

theorem processFile_skip (t : Frame → Except String Frame)
    (u : Frame → Frame → String → Frame) (cold : Bool) (st : SilverState)
    (name : String) (df : Frame)
    (h : (lookupA st.silver (silverPartitionName (batchYearOf name))).isSome) :
    processFile t u cold st name df = .ok { st with log := st.log ++ [.logSkip name] } := by
  unfold processFile
  simp [h]

theorem processFile_ok_shape (t : Frame → Except String Frame)
    (u : Frame → Frame → String → Frame) (cold : Bool) (st st' : SilverState)
    (name : String) (df : Frame) (h : processFile t u cold st name df = .ok st') :
    (lookupA st'.silver (silverPartitionName (batchYearOf name))).isSome ∧
      (∀ pn pf, lookupA st.silver pn = some pf → lookupA st'.silver pn = some pf) := by
  unfold processFile at h
  by_cases hex : (lookupA st.silver (silverPartitionName (batchYearOf name))).isSome
  · rw [if_pos hex] at h
    injection h with h'
    subst h'
    exact ⟨hex, fun pn pf hpf => hpf⟩
  · rw [if_neg hex] at h
    cases ht : t df with
    | error e => rw [ht] at h; cases h
    | ok v =>
      rw [ht] at h
      injection h with h'
      subst h'
      constructor
      · simp [lookupA_fsWrite_self]
      · intro pn pf hpf
        have hne : pn ≠ silverPartitionName (batchYearOf name) := by
          intro he
          rw [he] at hpf
          rw [hpf] at hex
          exact hex (by simp)
        simpa [lookupA_fsWrite_other hne] using hpf

/-- C7: when `silver_<year>.parquet` already exists for a Bronze file's parsed
year, the reconciliation loop skips the file entirely — the Silver store and
baseline are untouched and the only effect is a skip log entry (no transform,
validation, drift check or write); a file processed once is skipped on
re-processing; and an existing partition survives, byte-identical, any whole
run over any file list. -/
theorem silver_skip_if_exists :
    (∀ t u cold st name df frame,
      lookupA st.silver (silverPartitionName (batchYearOf name)) = some frame →
      processFile t u cold st name df = .ok { st with log := st.log ++ [.logSkip name] }) ∧
    (∀ t u cold st st' name df,
      processFile t u cold st name df = .ok st' →
      processFile t u cold st' name df = .ok { st' with log := st'.log ++ [.logSkip name] }) ∧
    (∀ t u cold files st st' pn pf,
      lookupA st.silver pn = some pf →
      runSilverFiles t u cold st files = .ok st' →
      lookupA st'.silver pn = some pf) := by
  refine ⟨?_, ?_, ?_⟩
  · intro t u cold st name df frame h
    exact processFile_skip t u cold st name df (by simp [h])
  · intro t u cold st st' name df h
    exact processFile_skip t u cold st' name df (processFile_ok_shape t u cold st st' name df h).1
  · intro t u cold files
    induction files with
    | nil =>
      intro st st' pn pf h1 h2
      rw [runSilverFiles] at h2
      injection h2 with h'
      exact h' ▸ h1
    | cons file rest ih =>
      intro st st' pn pf h1 h2
      obtain ⟨name, df⟩ := file
      rw [runSilverFiles] at h2
      cases hpf : processFile t u cold st name df with
      | error e => rw [hpf] at h2; cases h2
      | ok st1 =>
        rw [hpf] at h2
        exact ih st1 st' pn pf
          ((processFile_ok_shape t u cold st st1 name df hpf).2 pn pf h1) h2

/-- Witness for C7: a skip at a concrete state holding `silver_2023.parquet`
when `bronze_PEDE2023.parquet` arrives. -/
theorem silver_skip_if_exists_witness :
    processFile silverTransform (fun b _ _ => b) false
      ⟨[("silver_2023.parquet", [])], [], []⟩ "bronze_PEDE2023.parquet" [] =
      .ok ⟨[("silver_2023.parquet", [])], [], [Effect.logSkip "bronze_PEDE2023.parquet"]⟩ :=
  silver_skip_if_exists.1 silverTransform (fun b _ _ => b) false
    ⟨[("silver_2023.parquet", [])], [], []⟩ "bronze_PEDE2023.parquet" [] []
    (by decide)

end Datathon

namespace Datathon

/-! ## C1: the Gold label is the next chronological defasagem -/

instance : IsTrans SilverRow rowLe := by
  refine ⟨fun a b c hab hbc => ?_⟩
  rcases hab with h1 | ⟨h1, h1'⟩ <;> rcases hbc with h2 | ⟨h2, h2'⟩
  · exact Or.inl (lt_trans h1 h2)
  · exact Or.inl (h2 ▸ h1)
  · exact Or.inl (h1 ▸ h2)
  · exact Or.inr ⟨h1.trans h2, le_trans h1' h2'⟩

instance : IsTotal SilverRow rowLe := by
  refine ⟨fun a b => ?_⟩
  rcases lt_trichotomy a.ra b.ra with h | h | h
  · exact Or.inl (Or.inl h)
  · rcases le_total a.ano b.ano with ha | hb
    · exact Or.inl (Or.inr ⟨h, ha⟩)
    · exact Or.inr (Or.inr ⟨h.symm, hb⟩)
  · exact Or.inr (Or.inl h)

theorem rowLe_ra_le {a b : SilverRow} (h : rowLe a b) : a.ra ≤ b.ra := by
  rcases h with h | ⟨h, _⟩
  · exact le_of_lt h
  · exact le_of_eq h

theorem groupShiftTargets_length (xs : List SilverRow) :
    (groupShiftTargets xs).length = xs.length := by
  induction xs with
  | nil => rfl
  | cons r rs ih => simp [groupShiftTargets, ih]

theorem groupShiftTargets_map_toSilver (xs : List SilverRow) :
    (groupShiftTargets xs).map toSilver = xs := by
  induction xs with
  | nil => rfl
  | cons r rs ih => simp [groupShiftTargets, toSilver, ih]

theorem drop_eq_get_cons' {α : Type} :
    ∀ (l : List α) (n : Nat) (h : n < l.length),
      l.drop n = l.get ⟨n, h⟩ :: l.drop (n + 1)
  | a :: t, 0, _ => rfl
  | a :: t, n + 1, h => drop_eq_get_cons' t n (Nat.lt_of_succ_lt_succ h)

theorem groupShiftTargets_get (xs : List SilverRow) :
    ∀ (i : Nat) (hx : i < xs.length) (hi : i < (groupShiftTargets xs).length),
      (groupShiftTargets xs).get ⟨i, hi⟩ =
        ⟨(xs.get ⟨i, hx⟩).ra, (xs.get ⟨i, hx⟩).ano, (xs.get ⟨i, hx⟩).defasagem,
          nextInGroup (xs.get ⟨i, hx⟩).ra (xs.drop (i + 1))⟩ := by
  induction xs with
  | nil => intro i hx; exact absurd hx (by simp)
  | cons r rs ih =>
    intro i hx hi
    cases i with
    | zero => rfl
    | succ i =>
      exact ih i (Nat.lt_of_succ_lt_succ hx)
        (by simpa [groupShiftTargets] using Nat.lt_of_succ_lt_succ hi)

theorem nextInGroup_eq_none {ra : Int} {l : List SilverRow}
    (h : ∀ r ∈ l, r.ra ≠ ra) : nextInGroup ra l = none := by
  induction l with
  | nil => rfl
  | cons r rs ih =>
    rw [nextInGroup, if_neg (h r (by simp))]
    exact ih (fun r' hr' => h r' (by simp [hr']))

theorem engineer_sorted (df : List SilverRow) :
    List.Pairwise rowLe (sortValues df) :=
  List.sorted_insertionSort rowLe df

theorem engineer_pairwise (df : List SilverRow) :
    List.Pairwise goldLe (engineer_features_and_target df) := by
  have h := engineer_sorted df
  rw [← groupShiftTargets_map_toSilver (sortValues df), List.pairwise_map] at h
  exact h

theorem shift_target_spec (df : List SilverRow) (i : Nat)
    (hi : i < (groupShiftTargets (sortValues df)).length) :
    ((groupShiftTargets (sortValues df)).get ⟨i, hi⟩).target =
      if h : i + 1 < (groupShiftTargets (sortValues df)).length then
        (if ((groupShiftTargets (sortValues df)).get ⟨i + 1, h⟩).ra =
            ((groupShiftTargets (sortValues df)).get ⟨i, hi⟩).ra then
          some (((groupShiftTargets (sortValues df)).get ⟨i + 1, h⟩).defasagem)
        else none)
      else none := by
  have hsort := engineer_sorted df
  have hlen : (groupShiftTargets (sortValues df)).length = (sortValues df).length :=
    groupShiftTargets_length _
  have hx : i < (sortValues df).length := hlen ▸ hi
  by_cases h1 : i + 1 < (groupShiftTargets (sortValues df)).length
  · have hx1 : i + 1 < (sortValues df).length := hlen ▸ h1
    rw [dif_pos h1, groupShiftTargets_get (sortValues df) i hx hi,
        groupShiftTargets_get (sortValues df) (i + 1) hx1 h1]
    dsimp only
    rw [drop_eq_get_cons' (sortValues df) (i + 1) hx1]
    by_cases hra : ((sortValues df).get ⟨i + 1, hx1⟩).ra = ((sortValues df).get ⟨i, hx⟩).ra
    · rw [nextInGroup, if_pos hra, if_pos hra]
    · rw [nextInGroup, if_neg hra, if_neg hra]
      have hdrop : List.Pairwise rowLe ((sortValues df).drop i) :=
        hsort.sublist (List.drop_sublist i _)
      rw [drop_eq_get_cons' (sortValues df) i hx,
          drop_eq_get_cons' (sortValues df) (i + 1) hx1] at hdrop
      have hadj : rowLe ((sortValues df).get ⟨i, hx⟩) ((sortValues df).get ⟨i + 1, hx1⟩) :=
        (List.pairwise_cons.mp hdrop).1 _ (List.mem_cons_self _ _)
      have htail : List.Pairwise rowLe
          ((sortValues df).get ⟨i + 1, hx1⟩ :: (sortValues df).drop (i + 2)) :=
        (List.pairwise_cons.mp hdrop).2
      have hlt : ((sortValues df).get ⟨i, hx⟩).ra < ((sortValues df).get ⟨i + 1, hx1⟩).ra := by
        rcases hadj with h | ⟨h, _⟩
        · exact h
        · exact absurd h.symm hra
      apply nextInGroup_eq_none
      intro r hr
      have hler : rowLe ((sortValues df).get ⟨i + 1, hx1⟩) r :=
        (List.pairwise_cons.mp htail).1 r hr
      have hra_le := rowLe_ra_le hler
      intro he
      rw [he] at hra_le
      exact absurd (lt_of_le_of_lt hra_le hlt) (lt_irrefl _)
  · rw [dif_neg h1, groupShiftTargets_get (sortValues df) i hx hi]
    dsimp only
    have hge : (sortValues df).length ≤ i + 1 := by
      have h2 := Nat.not_lt.mp h1
      omega
    rw [List.drop_eq_nil_of_le hge, nextInGroup]

/-- C1: `engineer_features_and_target` emits a permutation of its input sorted
by (student id, year); every record's label is the `defasagem` of the next
row exactly when that next row is the same student's (hence, by sortedness,
the student's next chronological record), and it is null otherwise — in
particular on each student's chronologically last record. -/
theorem gold_target_is_next_year_defasagem (df : List SilverRow) :
    ((engineer_features_and_target df).map toSilver).Perm df ∧
    List.Pairwise goldLe (engineer_features_and_target df) ∧
    (∀ (i : Nat) (hi : i < (engineer_features_and_target df).length),
      ((engineer_features_and_target df).get ⟨i, hi⟩).target =
        if h : i + 1 < (engineer_features_and_target df).length then
          (if ((engineer_features_and_target df).get ⟨i + 1, h⟩).ra =
              ((engineer_features_and_target df).get ⟨i, hi⟩).ra then
            some (((engineer_features_and_target df).get ⟨i + 1, h⟩).defasagem)
          else none)
        else none) := by
  refine ⟨?_, engineer_pairwise df, fun i hi => shift_target_spec df i hi⟩
  rw [engineer_features_and_target, groupShiftTargets_map_toSilver]
  exact List.perm_insertionSort rowLe df

/-- Witness for C1: on a concrete unsorted history, student 1's 2022 record
is labelled with the 2023 defasagem. -/
theorem gold_target_is_next_year_defasagem_witness :
    ((engineer_features_and_target exDfC1).get ⟨0, by decide⟩).target = some (-1) := by
  have h := (gold_target_is_next_year_defasagem exDfC1).2.2 0 (by decide)
  rw [h]
  decide

end Datathon

namespace Datathon

/-! ## C3: the online store is the latest snapshot per student -/

theorem dedupKeepLast_count (l : List GoldRow) (k : Int) :
    ((dedupKeepLast l).filter (fun r => r.ra == k)).length =
      if l.any (fun g => g.ra == k) then 1 else 0 := by
  induction l with
  | nil => simp [dedupKeepLast]
  | cons r rs ih =>
    rw [dedupKeepLast]
    by_cases hany : rs.any (fun x => x.ra == r.ra)
    · rw [if_pos hany, ih, List.any_cons]
      by_cases hk : r.ra = k
      · rw [hk] at hany
        simp [hany, hk]
      · have hne : (r.ra == k) = false := beq_eq_false_iff_ne.mpr hk
        simp [hne]
    · rw [if_neg hany]
      by_cases hk : r.ra = k
      · have hrs : rs.any (fun x => x.ra == k) = false := by
          rw [← hk]
          simpa using hany
        simp [List.filter_cons, hk, ih, hrs]
      · have hne : (r.ra == k) = false := beq_eq_false_iff_ne.mpr hk
        simp [List.filter_cons, hne, ih]

theorem dedupKeepLast_latest {l : List GoldRow} (hs : List.Pairwise goldLe l) :
    ∀ r ∈ dedupKeepLast l, r ∈ l ∧ ∀ g ∈ l, g.ra = r.ra → g.ano ≤ r.ano := by
  induction l with
  | nil => simp [dedupKeepLast]
  | cons x xs ih =>
    obtain ⟨hx, hxs⟩ := List.pairwise_cons.mp hs
    rw [dedupKeepLast]
    by_cases hany : xs.any (fun y => y.ra == x.ra)
    · rw [if_pos hany]
      intro r hr
      obtain ⟨hrmem, hmax⟩ := ih hxs r hr
      refine ⟨List.mem_cons_of_mem _ hrmem, ?_⟩
      intro g hg hgr
      rcases List.mem_cons.mp hg with hgx | hgxs
      · subst hgx
        have hle := hx r hrmem
        simp only [goldLe, rowLe, toSilver] at hle
        rcases hle with hlt | ⟨_, hle⟩
        · exact absurd (hgr ▸ hlt) (lt_irrefl _)
        · exact hle
      · exact hmax g hgxs hgr
    · rw [if_neg hany]
      intro r hr
      rcases List.mem_cons.mp hr with hrx | hrtail
      · subst hrx
        refine ⟨List.mem_cons_self _ _, ?_⟩
        intro g hg hgr
        rcases List.mem_cons.mp hg with hgx | hgxs
        · subst hgx
          exact le_refl _
        · exfalso
          apply hany
          exact List.any_eq_true.mpr ⟨g, hgxs, beq_iff_eq.mpr hgr⟩
      · obtain ⟨hrmem, hmax⟩ := ih hxs r hrtail
        refine ⟨List.mem_cons_of_mem _ hrmem, ?_⟩
        intro g hg hgr
        rcases List.mem_cons.mp hg with hgx | hgxs
        · subst hgx
          have hle := hx r hrmem
          simp only [goldLe, rowLe, toSilver] at hle
          rcases hle with hlt | ⟨_, hle⟩
          · exact absurd (hgr ▸ hlt) (lt_irrefl _)
          · exact hle
        · exact hmax g hgxs hgr

/-- C3: on the labelled Gold frame, `save_online_store` ignores the previous
table wholesale (replace, not upsert); the resulting table has exactly one
row per student id occurring in the frame; each table row is the target-free
projection of a Gold record of that student whose year is maximal among the
student's records. The target column is absent by construction: the table's
row type `OnlineRow` carries no label field. -/
theorem online_store_latest_snapshot (df : List SilverRow) (old1 old2 : List OnlineRow) :
    save_online_store (engineer_features_and_target df) old1 =
      save_online_store (engineer_features_and_target df) old2 ∧
    (∀ k : Int,
      ((save_online_store (engineer_features_and_target df) old1).filter
        (fun r => r.ra == k)).length =
        if (engineer_features_and_target df).any (fun g => g.ra == k) then 1 else 0) ∧
    (∀ r ∈ save_online_store (engineer_features_and_target df) old1,
      ∃ g ∈ engineer_features_and_target df, g.ra = r.ra ∧ dropTarget g = r ∧
        ∀ g' ∈ engineer_features_and_target df, g'.ra = r.ra → g'.ano ≤ g.ano) := by
  refine ⟨rfl, ?_, ?_⟩
  · intro k
    rw [save_online_store, List.filter_map, List.length_map]
    exact dedupKeepLast_count _ k
  · intro r hr
    rw [save_online_store] at hr
    obtain ⟨g, hg, hgr⟩ := List.mem_map.mp hr
    obtain ⟨hmem, hmax⟩ := dedupKeepLast_latest (engineer_pairwise df) g hg
    refine ⟨g, hmem, ?_, hgr, ?_⟩
    · rw [← hgr]
      rfl
    · intro g' hg' hra
      apply hmax g' hg'
      rw [hra, ← hgr]
      rfl

/-- Witness for C3: with a two-year history the online row for student 1 is
the 2023 (latest) record. -/
theorem online_store_latest_snapshot_witness :
    ∃ g ∈ engineer_features_and_target exDfC3,
      g.ra = (⟨1, 2023, -1⟩ : OnlineRow).ra ∧ dropTarget g = ⟨1, 2023, -1⟩ ∧
      ∀ g' ∈ engineer_features_and_target exDfC3,
        g'.ra = (⟨1, 2023, -1⟩ : OnlineRow).ra → g'.ano ≤ g.ano :=
  (online_store_latest_snapshot exDfC3 [] []).2.2 ⟨1, 2023, -1⟩ (by decide)

end Datathon

namespace Datathon

/-! ## Step-inversion lemmas for the cleaning chain -/

theorem exceptOk?_eq_some {x : Except String Frame} {v : Frame}
    (h : exceptOk? x = some v) : x = .ok v := by
  cases x with
  | ok a =>
    rw [exceptOk?] at h
    injection h with h'
    rw [h']
  | error e =>
    rw [exceptOk?] at h
    exact Option.noConfusion h

theorem astypeInt_length {l : List Val} {ns : List Int}
    (h : astypeInt l = .ok ns) : ns.length = l.length := by
  induction l generalizing ns with
  | nil =>
    rw [astypeInt] at h
    injection h with h'
    simp [← h']
  | cons v vs ih =>
    cases h1 : astypeIntOne v with
    | error e =>
      simp only [astypeInt, h1] at h
      exact Except.noConfusion h
    | ok n =>
      cases h2 : astypeInt vs with
      | error e =>
        simp only [astypeInt, h1, h2] at h
        exact Except.noConfusion h
      | ok ms =>
        simp only [astypeInt, h1, h2] at h
        injection h with h'
        simp [← h', ih h2]

theorem applyCleanInt_other {f g : Frame} {c c' : String} {clean : Val → Val}
    (h : applyCleanInt f c clean = .ok g) (hne : c' ≠ c) :
    findCol g c' = findCol f c' := by
  cases hf : findCol f c with
  | none =>
    simp only [applyCleanInt, hf] at h
    injection h with h'
    rw [← h']
  | some col =>
    cases ha : astypeInt (col.map clean) with
    | error e =>
      simp only [applyCleanInt, hf, ha] at h
      exact Except.noConfusion h
    | ok ns =>
      simp only [applyCleanInt, hf, ha] at h
      injection h with h'
      rw [← h', findCol_setCol_other hne]

theorem applyCleanInt_self {f g : Frame} {c : String} {clean : Val → Val} {col : List Val}
    (h : applyCleanInt f c clean = .ok g) (hc : findCol f c = some col) :
    ∃ ns : List Int, astypeInt (col.map clean) = .ok ns ∧
      findCol g c = some (ns.map Val.intv) := by
  cases ha : astypeInt (col.map clean) with
  | error e =>
    simp only [applyCleanInt, hc, ha] at h
    exact Except.noConfusion h
  | ok ns =>
    simp only [applyCleanInt, hc, ha] at h
    injection h with h'
    exact ⟨ns, rfl, by rw [← h', findCol_setCol_self]⟩

theorem applyCleanFloat_other {f g : Frame} {c c' : String} {clean : Val → Val}
    (h : applyCleanFloat f c clean = .ok g) (hne : c' ≠ c) :
    findCol g c' = findCol f c' := by
  cases hf : findCol f c with
  | none =>
    simp only [applyCleanFloat, hf] at h
    injection h with h'
    rw [← h']
  | some col =>
    cases ha : astypeFloat (col.map clean) with
    | error e =>
      simp only [applyCleanFloat, hf, ha] at h
      exact Except.noConfusion h
    | ok ws =>
      simp only [applyCleanFloat, hf, ha] at h
      injection h with h'
      rw [← h', findCol_setCol_other hne]

theorem applyCleanStr_other (f : Frame) {c c' : String} (clean : Val → Val) (hne : c' ≠ c) :
    findCol (applyCleanStr f c clean) c' = findCol f c' := by
  rw [applyCleanStr]
  cases hf : findCol f c with
  | none => rfl
  | some col => rw [findCol_setCol_other hne]

theorem applyMapCol_other (f : Frame) {c c' : String} (clean : Val → Val) (hne : c' ≠ c) :
    findCol (applyMapCol f c clean) c' = findCol f c' := by
  rw [applyMapCol]
  cases hf : findCol f c with
  | none => rfl
  | some col => rw [findCol_setCol_other hne]

theorem anoBlock_other {f g : Frame} {c' : String} (h : anoBlock f = .ok g)
    (h1 : c' ≠ FN.ANO_DADOS) (h2 : c' ≠ FN.ANOS_NA_INSTITUICAO) :
    findCol g c' = findCol f c' := by
  cases hf : findCol f FN.ANO_INGRESSO with
  | none =>
    simp only [anoBlock, hf] at h
    injection h with h'
    rw [← h']
  | some ingCol =>
    cases ha : anoColumn (colOf f FN.METADATA_SHEET) with
    | error e =>
      simp only [anoBlock, hf, ha] at h
      exact Except.noConfusion h
    | ok years =>
      cases hb : anosColumn years ingCol with
      | error e =>
        simp only [anoBlock, hf, ha, hb] at h
        exact Except.noConfusion h
      | ok anos =>
        simp only [anoBlock, hf, ha, hb] at h
        injection h with h'
        rw [← h', findCol_setCol_other h2, findCol_setCol_other h1]

theorem coerceCols_other {cs : List String} {f : Frame} {c' : String} (h : c' ∉ cs) :
    findCol (coerceCols f cs) c' = findCol f c' := by
  induction cs generalizing f with
  | nil => rfl
  | cons c rest ih =>
    have hne : c' ≠ c := fun he => h (he ▸ List.mem_cons_self _ _)
    have hrest : c' ∉ rest := fun he => h (List.mem_cons_of_mem _ he)
    rw [coerceCols, List.foldl_cons]
    have step : findCol ((coerceCols (setCol f c ((colOf f c).map toNumericVal)) rest)) c' =
        findCol (setCol f c ((colOf f c).map toNumericVal)) c' := ih hrest
    rw [coerceCols] at step
    rw [step, findCol_setCol_other hne]

theorem calculate_missing_ipp_other {f : Frame} {c' : String}
    (h : c' ∉ [FN.INDE, FN.IAN, FN.IDA, FN.IEG, FN.IAA, FN.IPS, FN.IPV, FN.IPP]) :
    findCol (calculate_missing_ipp f) c' = findCol f c' := by
  have h1 : c' ≠ FN.IPP := by simp at h; tauto
  have h2 : c' ∉ [FN.INDE, FN.IAN, FN.IDA, FN.IEG, FN.IAA, FN.IPS, FN.IPV] := by
    simp at h ⊢
    tauto
  rw [calculate_missing_ipp]
  by_cases hall : (colOf f FN.IPP).all isNaB
  · rw [if_pos hall, findCol_setCol_other h1, coerceCols_other h2]
  · rw [if_neg hall]

end Datathon

namespace Datathon

/-! ## Schema-stage preservation lemmas -/

theorem findCol_append_left {f rest : Frame} {c' : String} {col : List Val}
    (h : findCol f c' = some col) : findCol (f ++ rest) c' = some col := by
  induction f with
  | nil => exact Option.noConfusion h
  | cons p t ih =>
    obtain ⟨n, cv⟩ := p
    rw [findCol] at h
    rw [List.cons_append, findCol]
    by_cases hn : n = c'
    · rwa [if_pos hn] at h ⊢
    · rw [if_neg hn] at h ⊢
      exact ih h

theorem findCol_addMissing_aux (cols : List String) (acc : Frame) (n : Nat)
    {c' : String} {col : List Val} (h : findCol acc c' = some col) :
    findCol (cols.foldl
      (fun acc c => if (findCol acc c).isSome then acc
        else acc ++ [(c, List.replicate n Val.na)]) acc) c' = some col := by
  induction cols generalizing acc with
  | nil => exact h
  | cons c cs ih =>
    rw [List.foldl_cons]
    by_cases hc : (findCol acc c).isSome
    · rw [if_pos hc]
      exact ih acc h
    · rw [if_neg hc]
      exact ih _ (findCol_append_left h)

theorem findCol_addMissing {f : Frame} {n : Nat} {c' : String} {col : List Val}
    (h : findCol f c' = some col) : findCol (addMissing f n) c' = some col :=
  findCol_addMissing_aux COLUMNS_TO_KEEP f n h

theorem findCol_filterMap_not_mem {cols : List String} {f : Frame} {c' : String}
    (h : c' ∉ cols) :
    findCol (cols.filterMap (fun c => (findCol f c).map (fun col => (c, col)))) c' = none := by
  induction cols with
  | nil => rfl
  | cons c cs ih =>
    have hne : c ≠ c' := fun he => h (he ▸ List.mem_cons_self _ _)
    have hcs : c' ∉ cs := fun he => h (List.mem_cons_of_mem _ he)
    cases hf : findCol f c with
    | none =>
      simp only [List.filterMap_cons, hf, Option.map_none']
      exact ih hcs
    | some col =>
      simp only [List.filterMap_cons, hf, Option.map_some']
      rw [findCol, if_neg hne]
      exact ih hcs

theorem findCol_restrictAux {cols : List String} {f : Frame} {c' : String}
    (hmem : c' ∈ cols) (hnd : cols.Nodup) :
    findCol (cols.filterMap (fun c => (findCol f c).map (fun col => (c, col)))) c' =
      findCol f c' := by
  induction cols with
  | nil => exact absurd hmem (List.not_mem_nil _)
  | cons c cs ih =>
    obtain ⟨hnotin, hnd'⟩ := List.nodup_cons.mp hnd
    rcases List.mem_cons.mp hmem with rfl | hmem'
    · cases hf : findCol f c' with
      | none =>
        simp only [List.filterMap_cons, hf, Option.map_none']
        exact findCol_filterMap_not_mem hnotin
      | some col =>
        simp only [List.filterMap_cons, hf, Option.map_some']
        rw [findCol, if_pos rfl]
    · have hne : c ≠ c' := fun he => hnotin (he ▸ hmem')
      cases hf : findCol f c with
      | none =>
        simp only [List.filterMap_cons, hf, Option.map_none']
        exact ih hmem' hnd'
      | some col =>
        simp only [List.filterMap_cons, hf, Option.map_some']
        rw [findCol, if_neg hne]
        exact ih hmem' hnd'

theorem findCol_restrictCols {f : Frame} {c' : String} (hmem : c' ∈ COLUMNS_TO_KEEP) :
    findCol (restrictCols f) c' = findCol f c' :=
  findCol_restrictAux hmem (by decide)

theorem paValidate_ok_inv {f g : Frame} (h : paValidate f = .ok g) :
    ∃ msc msrc, findCol f FN.METADATA_SHEET = some msc ∧
      findCol f FN.METADATA_SOURCE = some msrc ∧
      g = setCol (setCol f FN.METADATA_SHEET (msc.map astypeStrOne))
        FN.METADATA_SOURCE (msrc.map astypeStrOne) := by
  cases h1 : findCol f FN.METADATA_SHEET with
  | none =>
    simp only [paValidate, h1] at h
    exact Except.noConfusion h
  | some msc =>
    cases h2 : findCol f FN.METADATA_SOURCE with
    | none =>
      simp only [paValidate, h1, h2] at h
      exact Except.noConfusion h
    | some msrc =>
      cases h3 : findCol f FN.RA with
      | none =>
        simp only [paValidate, h1, h2, h3] at h
        exact Except.noConfusion h
      | some racol =>
        simp only [paValidate, h1, h2, h3] at h
        injection h with h'
        exact ⟨msc, msrc, rfl, rfl, h'.symm⟩

theorem validate_preserves {cl g : Frame} {c : String} {col : List Val}
    (h : validate_schema_pandera cl = .ok g)
    (hmem : c ∈ COLUMNS_TO_KEEP) (hms : c ≠ FN.METADATA_SHEET)
    (hsrc : c ≠ FN.METADATA_SOURCE) (hcol : findCol cl c = some col) :
    findCol g c = some col := by
  rw [validate_schema_pandera] at h
  obtain ⟨msc, msrc, _, _, hg⟩ := paValidate_ok_inv h
  rw [hg, findCol_setCol_other hsrc, findCol_setCol_other hms,
    findCol_restrictCols hmem]
  exact findCol_addMissing hcol

/-! ## Inversion of the full cleaning chain -/

theorem bindE_ok_inv {x : Except String Frame} {k : Frame → Except String Frame}
    {g : Frame} (h : (x >>= k) = .ok g) : ∃ y, x = .ok y ∧ k y = .ok g := by
  cases x with
  | error e => exact Except.noConfusion h
  | ok y => exact ⟨y, rfl, h⟩

theorem apply_global_cleaning_four {m cl : Frame}
    {colID colFA colRA colDF : List Val}
    (h : apply_global_cleaning m = .ok cl)
    (hID : findCol m FN.IDADE = some colID)
    (hFA : findCol m FN.FASE = some colFA)
    (hRA : findCol m FN.RA = some colRA)
    (hDF : findCol m FN.DEFASAGEM = some colDF) :
    (∃ ns : List Int, astypeInt (colID.map clean_idade) = .ok ns ∧
      findCol cl FN.IDADE = some (ns.map Val.intv)) ∧
    (∃ ns : List Int, astypeInt (colFA.map clean_fase) = .ok ns ∧
      findCol cl FN.FASE = some (ns.map Val.intv)) ∧
    (∃ ns : List Int, astypeInt (colRA.map clean_ra) = .ok ns ∧
      findCol cl FN.RA = some (ns.map Val.intv)) ∧
    (∃ ns : List Int, astypeInt (colDF.map id) = .ok ns ∧
      findCol cl FN.DEFASAGEM = some (ns.map Val.intv)) := by
  rw [apply_global_cleaning] at h
  obtain ⟨f1, s1, h⟩ := bindE_ok_inv h
  obtain ⟨f3, s3, h⟩ := bindE_ok_inv h
  obtain ⟨f4, s4, h⟩ := bindE_ok_inv h
  obtain ⟨f6, s6, h⟩ := bindE_ok_inv h
  obtain ⟨f8, s8, h⟩ := bindE_ok_inv h
  obtain ⟨f9, s9, h⟩ := bindE_ok_inv h
  obtain ⟨f10, s10, h⟩ := bindE_ok_inv h
  obtain ⟨f11, s11, h⟩ := bindE_ok_inv h
  obtain ⟨f12, s12, h⟩ := bindE_ok_inv h
  obtain ⟨f13, s13, h⟩ := bindE_ok_inv h
  obtain ⟨f14, s14, h⟩ := bindE_ok_inv h
  obtain ⟨f15, s15, h⟩ := bindE_ok_inv h
  refine ⟨?_, ?_, ?_, ?_⟩
  · obtain ⟨ns, ha, hf1⟩ := applyCleanInt_self s1 hID
    refine ⟨ns, ha, ?_⟩
    rw [anoBlock_other h (by decide) (by decide), applyCleanInt_other s15 (by decide),
      applyCleanFloat_other s14 (by decide), applyCleanFloat_other s13 (by decide),
      applyCleanFloat_other s12 (by decide), applyCleanFloat_other s11 (by decide),
      applyCleanFloat_other s10 (by decide), applyCleanFloat_other s9 (by decide),
      applyCleanFloat_other s8 (by decide), applyCleanStr_other _ _ (by decide),
      applyCleanFloat_other s6 (by decide), applyMapCol_other _ _ (by decide),
      applyCleanInt_other s4 (by decide), applyCleanInt_other s3 (by decide),
      applyCleanStr_other _ _ (by decide)]
    exact hf1
  · have hFA3 : findCol (applyCleanStr f1 FN.GENERO clean_genero) FN.FASE = some colFA := by
      rw [applyCleanStr_other _ _ (by decide), applyCleanInt_other s1 (by decide)]
      exact hFA
    obtain ⟨ns, ha, hf3⟩ := applyCleanInt_self s3 hFA3
    refine ⟨ns, ha, ?_⟩
    rw [anoBlock_other h (by decide) (by decide), applyCleanInt_other s15 (by decide),
      applyCleanFloat_other s14 (by decide), applyCleanFloat_other s13 (by decide),
      applyCleanFloat_other s12 (by decide), applyCleanFloat_other s11 (by decide),
      applyCleanFloat_other s10 (by decide), applyCleanFloat_other s9 (by decide),
      applyCleanFloat_other s8 (by decide), applyCleanStr_other _ _ (by decide),
      applyCleanFloat_other s6 (by decide), applyMapCol_other _ _ (by decide),
      applyCleanInt_other s4 (by decide)]
    exact hf3
  · have hRA4 : findCol f3 FN.RA = some colRA := by
      rw [applyCleanInt_other s3 (by decide), applyCleanStr_other _ _ (by decide),
        applyCleanInt_other s1 (by decide)]
      exact hRA
    obtain ⟨ns, ha, hf4⟩ := applyCleanInt_self s4 hRA4
    refine ⟨ns, ha, ?_⟩
    rw [anoBlock_other h (by decide) (by decide), applyCleanInt_other s15 (by decide),
      applyCleanFloat_other s14 (by decide), applyCleanFloat_other s13 (by decide),
      applyCleanFloat_other s12 (by decide), applyCleanFloat_other s11 (by decide),
      applyCleanFloat_other s10 (by decide), applyCleanFloat_other s9 (by decide),
      applyCleanFloat_other s8 (by decide), applyCleanStr_other _ _ (by decide),
      applyCleanFloat_other s6 (by decide), applyMapCol_other _ _ (by decide)]
    exact hf4
  · have hDF15 : findCol f14 FN.DEFASAGEM = some colDF := by
      rw [applyCleanFloat_other s14 (by decide), applyCleanFloat_other s13 (by decide),
        applyCleanFloat_other s12 (by decide), applyCleanFloat_other s11 (by decide),
        applyCleanFloat_other s10 (by decide), applyCleanFloat_other s9 (by decide),
        applyCleanFloat_other s8 (by decide), applyCleanStr_other _ _ (by decide),
        applyCleanFloat_other s6 (by decide), applyMapCol_other _ _ (by decide),
        applyCleanInt_other s4 (by decide), applyCleanInt_other s3 (by decide),
        applyCleanStr_other _ _ (by decide), applyCleanInt_other s1 (by decide)]
      exact hDF
    obtain ⟨ns, ha, hf15⟩ := applyCleanInt_self s15 hDF15
    refine ⟨ns, ha, ?_⟩
    rw [anoBlock_other h (by decide) (by decide)]
    exact hf15

end Datathon

namespace Datathon

/-! ## C10: the four int-cast columns -/

theorem extract_four_present (f0 : Frame) :
    (findCol (extract_target_columns f0) FN.IDADE).isSome = true ∧
    (findCol (extract_target_columns f0) FN.FASE).isSome = true ∧
    (findCol (extract_target_columns f0) FN.RA).isSome = true ∧
    (findCol (extract_target_columns f0) FN.DEFASAGEM).isSome = true :=
  ⟨rfl, rfl, rfl, rfl⟩

/-- C10: whenever the Silver assembly line succeeds, the persisted frame's
age, phase, student-id and defasagem columns consist exclusively of integers
(`astype(int)` output) — never null; and the stage raises (the batch fails)
on a batch whose age value survives cleaning as the string `"Dezoito"`, as
well as on a batch with no defasagem column (null-filled by extraction). -/
theorem int_cast_columns_never_null :
    (∀ f g : Frame, silverTransform f = .ok g →
      ∀ c ∈ [FN.IDADE, FN.FASE, FN.RA, FN.DEFASAGEM],
        ∃ ns : List Int, findCol g c = some (ns.map Val.intv)) ∧
    exceptOk? (silverTransform badC10a) = none ∧
    exceptOk? (silverTransform badC10b) = none := by
  refine ⟨?_, by decide, by decide⟩
  intro f g h c hc
  rw [silverTransform] at h
  obtain ⟨cl, hclean, hval⟩ := bindE_ok_inv h
  obtain ⟨hp1, hp2, hp3, hp4⟩ := extract_four_present f
  rw [← calculate_missing_ipp_other (f := extract_target_columns f) (by decide)] at hp1
  rw [← calculate_missing_ipp_other (f := extract_target_columns f) (by decide)] at hp2
  rw [← calculate_missing_ipp_other (f := extract_target_columns f) (by decide)] at hp3
  rw [← calculate_missing_ipp_other (f := extract_target_columns f) (by decide)] at hp4
  obtain ⟨colID, hID⟩ := Option.isSome_iff_exists.mp hp1
  obtain ⟨colFA, hFA⟩ := Option.isSome_iff_exists.mp hp2
  obtain ⟨colRA, hRA⟩ := Option.isSome_iff_exists.mp hp3
  obtain ⟨colDF, hDF⟩ := Option.isSome_iff_exists.mp hp4
  obtain ⟨⟨ns1, _, hg1⟩, ⟨ns2, _, hg2⟩, ⟨ns3, _, hg3⟩, ⟨ns4, _, hg4⟩⟩ :=
    apply_global_cleaning_four hclean hID hFA hRA hDF
  simp only [List.mem_cons, List.not_mem_nil, or_false] at hc
  rcases hc with rfl | rfl | rfl | rfl
  · exact ⟨ns1, validate_preserves hval (by decide) (by decide) (by decide) hg1⟩
  · exact ⟨ns2, validate_preserves hval (by decide) (by decide) (by decide) hg2⟩
  · exact ⟨ns3, validate_preserves hval (by decide) (by decide) (by decide) hg3⟩
  · exact ⟨ns4, validate_preserves hval (by decide) (by decide) (by decide) hg4⟩

/-- Witness for C10: the student-id column of the partition persisted for
`dupFC5` is a pure integer column. -/
theorem int_cast_columns_never_null_witness :
    ∃ ns : List Int, findCol silverOutC5 FN.RA = some (ns.map Val.intv) :=
  int_cast_columns_never_null.1 dupFC5 silverOutC5
    (exceptOk?_eq_some (by decide)) FN.RA (by decide)

/-! ## C5: no deduplication in Silver reconciliation -/

/-- C5 counterexample: the pipeline persists the duplicate-RA batch verbatim;
the resulting partition holds two distinct rows (row 0 and row 1) with the
same (RA, year) key (1234, 2023), so "for every pair of distinct rows the
(RA, year) keys differ" is false on this partition. -/
theorem silver_duplicate_keys_counterexample :
    exceptOk? (silverTransform dupFC5) = some silverOutC5 ∧
    colOf silverOutC5 FN.RA = [Val.intv 1234, Val.intv 1234] ∧
    colOf silverOutC5 FN.ANO_DADOS = [Val.intv 2023, Val.intv 2023] :=
  ⟨by decide, by decide, by decide⟩

theorem findCol_mem {f : Frame} {c : String} {col : List Val}
    (h : findCol f c = some col) : (c, col) ∈ f := by
  induction f with
  | nil => exact Option.noConfusion h
  | cons p rest ih =>
    obtain ⟨n, cv⟩ := p
    rw [findCol] at h
    by_cases hn : n = c
    · rw [if_pos hn] at h
      injection h with h'
      subst hn
      subst h'
      exact List.mem_cons_self _ _
    · rw [if_neg hn] at h
      exact List.mem_cons_of_mem _ (ih h)

theorem find_and_assign_length {f' : Frame} {n : Nat}
    (hwf : ∀ p ∈ f', p.2.length = n) :
    ∀ names, (find_and_assign f' names n).length = n := by
  intro names
  induction names with
  | nil => simp [find_and_assign]
  | cons c rest ih =>
    cases hf : findCol f' c with
    | none =>
      simp only [find_and_assign, hf]
      exact ih
    | some col =>
      simp only [find_and_assign, hf]
      exact hwf (c, col) (findCol_mem hf)

theorem nRows_normalizeHeader (f : Frame) : nRows (normalizeHeader f) = nRows f := by
  cases f with
  | nil => rfl
  | cons p t => rfl

theorem setCol_cons_ne {n c : String} (h : n ≠ c) (col v : List Val) (rest : Frame) :
    setCol ((n, col) :: rest) c v = (n, col) :: setCol rest c v := by
  rw [setCol, if_neg h]

theorem restrictCols_head {f : Frame} {racol : List Val}
    (hf : findCol f FN.RA = some racol) :
    ∃ tail, restrictCols f = (FN.RA, racol) :: tail := by
  refine ⟨List.filterMap (fun c => (findCol f c).map (fun col => (c, col)))
    [FN.FASE, FN.IDADE, FN.GENERO, FN.ANOS_NA_INSTITUICAO, FN.INSTITUICAO,
     FN.PEDRA_ATUAL, FN.INDE, FN.IAA, FN.IEG, FN.IPS, FN.IDA, FN.IPV, FN.IAN,
     FN.IPP, FN.DEFASAGEM, FN.ANO_DADOS, FN.METADATA_SOURCE, FN.METADATA_SHEET], ?_⟩
  rw [restrictCols, COLUMNS_TO_KEEP]
  exact List.filterMap_cons_some (by rw [hf]; rfl)

theorem nRows_validate {cl g : Frame} {racol : List Val}
    (h : validate_schema_pandera cl = .ok g) (hra : findCol cl FN.RA = some racol) :
    nRows g = racol.length := by
  rw [validate_schema_pandera] at h
  obtain ⟨msc, msrc, _, _, hg⟩ := paValidate_ok_inv h
  obtain ⟨tail, hx⟩ := restrictCols_head (findCol_addMissing hra)
  rw [hg, hx, setCol_cons_ne (by decide), setCol_cons_ne (by decide), nRows]

/-- C5 (amended): Silver reconciliation performs no deduplication — it emits
exactly one output record per input record of the batch. For every
well-formed batch frame that the assembly line accepts, the persisted
partition's row count equals the input's row count, so a batch carrying
several rows with the same (RA, year) persists them all. -/
theorem silver_no_dedup_row_preservation (f g : Frame)
    (hwf : ∀ p ∈ f, p.2.length = nRows f)
    (h : silverTransform f = .ok g) :
    nRows g = nRows f := by
  rw [silverTransform] at h
  obtain ⟨cl, hclean, hval⟩ := bindE_ok_inv h
  obtain ⟨hp1, hp2, hp4⟩ := And.intro (extract_four_present f).1
    (And.intro (extract_four_present f).2.1 (extract_four_present f).2.2.2)
  rw [← calculate_missing_ipp_other (f := extract_target_columns f) (by decide)] at hp1
  rw [← calculate_missing_ipp_other (f := extract_target_columns f) (by decide)] at hp2
  rw [← calculate_missing_ipp_other (f := extract_target_columns f) (by decide)] at hp4
  obtain ⟨colID, hID⟩ := Option.isSome_iff_exists.mp hp1
  obtain ⟨colFA, hFA⟩ := Option.isSome_iff_exists.mp hp2
  obtain ⟨colDF, hDF⟩ := Option.isSome_iff_exists.mp hp4
  have hra_e : findCol (extract_target_columns f) FN.RA =
      some (find_and_assign (normalizeHeader f) ["ra"] (nRows (normalizeHeader f))) := rfl
  have hra_m : findCol (calculate_missing_ipp (extract_target_columns f)) FN.RA =
      some (find_and_assign (normalizeHeader f) ["ra"] (nRows (normalizeHeader f))) := by
    rw [calculate_missing_ipp_other (by decide)]
    exact hra_e
  obtain ⟨_, _, ⟨ns3, hast, hg3⟩, _⟩ :=
    apply_global_cleaning_four hclean hID hFA hra_m hDF
  have hlen1 : ns3.length =
      (find_and_assign (normalizeHeader f) ["ra"] (nRows (normalizeHeader f))).length := by
    rw [astypeInt_length hast, List.length_map]
  have hwf' : ∀ p ∈ normalizeHeader f, p.2.length = nRows (normalizeHeader f) := by
    intro p hp
    rw [nRows_normalizeHeader]
    obtain ⟨q, hq, rfl⟩ := List.mem_map.mp hp
    exact hwf q hq
  have hlen2 : (find_and_assign (normalizeHeader f) ["ra"]
      (nRows (normalizeHeader f))).length = nRows (normalizeHeader f) :=
    find_and_assign_length hwf' _
  rw [nRows_validate hval hg3, List.length_map, hlen1, hlen2, nRows_normalizeHeader]

/-- Witness for C5's amended theorem at the duplicate-RA batch: two rows in,
two rows out. -/
theorem silver_no_dedup_row_preservation_witness :
    nRows silverOutC5 = nRows dupFC5 :=
  silver_no_dedup_row_preservation dupFC5 silverOutC5 (by decide)
    (exceptOk?_eq_some (by decide))

end Datathon
